import Mathlib

/-!
Shallow embedding of the slither simulation core
(`src/frontend/src/slither/slitherLogic.js` and
`src/frontend/src/slither/botAI.js`) and proofs about it.

JavaScript numbers are embedded as exact real numbers.  Fallible code
(array accesses that would throw `TypeError` in JavaScript, and the
retry loop in `createInitialState`, which may diverge) is embedded as
`Option`.  Ambient randomness (`Math.random()`) is embedded as an
explicit oracle `rng : ℕ → ℝ` consumed sequentially, together with the
index of the next value to draw.
-/

namespace Slither

noncomputable section

open Classical

/-- A 2-D point, `{ x, y }` in the source. -/
structure Point where
  x : ℝ
  y : ℝ

instance : Inhabited Point := ⟨⟨0, 0⟩⟩

/-- A pellet, `{ x, y, value }` in the source. -/
structure Pellet where
  x : ℝ
  y : ℝ
  value : ℝ

/-- Arena bounds, `{ width, height }` in the source. -/
structure Bounds where
  width : ℝ
  height : ℝ

/-- A snake, `{ id, segments, angle, speed, turnSpeed, color, isPlayer }`. -/
structure Snake where
  id : String
  segments : List Point
  angle : ℝ
  speed : ℝ
  turnSpeed : ℝ
  color : String
  isPlayer : Bool

/-- The game state, `{ snakes, pellets, bounds, nextSnakeId, nextPelletSpawn }`. -/
structure GameState where
  snakes : List Snake
  pellets : List Pellet
  bounds : Bounds
  nextSnakeId : ℕ
  nextPelletSpawn : ℝ

/-! Constants from `slitherLogic.js`. -/

def SEGMENT_SPACING : ℝ := 8
def HEAD_RADIUS : ℝ := 15
def BODY_RADIUS : ℝ := 15
def PELLET_RADIUS : ℝ := 30
def MAGNET_RADIUS : ℝ := 100
def DEFAULT_SPEED : ℝ := 600
def SPEED_GROWTH_PER_SEGMENT : ℝ := 0.006
def SPEED_GROWTH_CAP : ℝ := 1.6
def TURN_SPEED : ℝ := 6
def PELLET_VALUE : ℝ := 2
def DEATH_PELLET_FRACTION : ℝ := 0.4
def INITIAL_LENGTH : ℕ := 30
def PELLET_SPAWN_INTERVAL : ℝ := 2
def ARENA_PADDING : ℝ := 40

/-! Constants from `botAI.js`. -/

def DANGER_RADIUS : ℝ := 80
def PELLET_SEEK_RADIUS : ℝ := 600
def TURN_SMOOTH : ℝ := 0.12

/-! Toroidal geometry. -/

/-- Truncation toward zero, the rounding used by the JavaScript `%` operator. -/
def jsTrunc (r : ℝ) : ℤ := if r < 0 then ⌈r⌉ else ⌊r⌋

/-- The JavaScript remainder operator `x % w` (for `w ≠ 0`):
`x - w * trunc (x / w)`, with the sign of the dividend. -/
def jsMod (x w : ℝ) : ℝ := x - w * (jsTrunc (x / w) : ℝ)

/-- One coordinate of `wrapPoint`: the source computes `((x % w) + w) % w`. -/
def wrapCoord (x w : ℝ) : ℝ := jsMod (jsMod x w + w) w

/-- Source `wrapPoint(p, bounds)`: wrap a point into
`[0, width) × [0, height)`. -/
def wrapPoint (p : Point) (bounds : Bounds) : Point :=
  ⟨wrapCoord p.x bounds.width, wrapCoord p.y bounds.height⟩

/-- Source `toroidalDistSq(a, b, bounds)`: squared length of the
per-axis displacement reduced by the nearest multiple of the arena
dimension.  JavaScript `Math.round` (round half toward `+∞`) coincides
with Mathlib's `round` on the reals. -/
def toroidalDistSq (a b : Point) (bounds : Bounds) : ℝ :=
  let dx0 := b.x - a.x
  let dy0 := b.y - a.y
  let dx := dx0 - bounds.width * (round (dx0 / bounds.width) : ℝ)
  let dy := dy0 - bounds.height * (round (dy0 / bounds.height) : ℝ)
  dx * dx + dy * dy

/-- Source `distSq(a, b)` from `botAI.js`: planar squared distance. -/
def planarDistSq (a b : Point) : ℝ :=
  (b.x - a.x) * (b.x - a.x) + (b.y - a.y) * (b.y - a.y)

/-- Source `normalizeAngle(a)`: the two `while` loops subtract or add
`2π` until the angle lies in `[-π, π]`.  For a finite real input the
loops terminate and compute exactly the value below (the subtracting
loop lands in `(-π, π]`, the adding loop in `[-π, π)`). -/
def normalizeAngle (a : ℝ) : ℝ :=
  if a > Real.pi then a - 2 * Real.pi * (⌈(a - Real.pi) / (2 * Real.pi)⌉ : ℝ)
  else if a < -Real.pi then a + 2 * Real.pi * (⌈(-Real.pi - a) / (2 * Real.pi)⌉ : ℝ)
  else a

/-! Movement (`moveSnake` and its follow-the-leader chain). -/

/-- One step of the body-follow loop in `moveSnake`: reposition the
current segment at `SEGMENT_SPACING` from the already-updated previous
segment, along the toroidal-shortest direction from the previous
segment toward the segment's old position (`Math.hypot` is embedded as
the square root of the sum of squares); if that direction is
degenerate (`d ≤ 1e-6`) the segment is placed directly behind the
heading.  The result is wrapped. -/
def chainStep (prev curr : Point) (angle : ℝ) (bounds : Bounds) : Point :=
  let w := bounds.width
  let h := bounds.height
  let tdx0 := curr.x - prev.x
  let tdy0 := curr.y - prev.y
  let tdx := tdx0 - w * (round (tdx0 / w) : ℝ)
  let tdy := tdy0 - h * (round (tdy0 / h) : ℝ)
  let d := Real.sqrt (tdx * tdx + tdy * tdy)
  if d ≤ 1 / 1000000 then
    wrapPoint ⟨prev.x - Real.cos angle * SEGMENT_SPACING,
               prev.y - Real.sin angle * SEGMENT_SPACING⟩ bounds
  else
    wrapPoint ⟨prev.x + tdx / d * SEGMENT_SPACING,
               prev.y + tdy / d * SEGMENT_SPACING⟩ bounds

/-- The `for (let i = 1; ...)` loop of `moveSnake`, rebuilding the body
behind the (already computed) new head. -/
def followChain (prev : Point) (rest : List Point) (angle : ℝ) (bounds : Bounds) :
    List Point :=
  match rest with
  | [] => []
  | curr :: rest' =>
    let nxt := chainStep prev curr angle bounds
    nxt :: followChain nxt rest' angle bounds

/-- Source `moveSnake(snake, dt, targetAngle, bounds)`.  Reading
`snake.segments[0]` of an empty body would throw in JavaScript
(`undefined.x`), so the embedding returns `none` in that case. -/
def moveSnake (snake : Snake) (dt targetAngle : ℝ) (bounds : Bounds) :
    Option Snake :=
  match snake.segments with
  | [] => none
  | head :: rest =>
    let diff := normalizeAngle (targetAngle - snake.angle)
    let angle1 := snake.angle + diff * min 1 (snake.turnSpeed * dt)
    let angle := normalizeAngle angle1
    let extraSegments : ℕ := snake.segments.length - INITIAL_LENGTH
    let growthMul := min SPEED_GROWTH_CAP (1 + (extraSegments : ℝ) * SPEED_GROWTH_PER_SEGMENT)
    let effectiveSpeed := snake.speed * growthMul
    let dx := Real.cos angle * effectiveSpeed * dt
    let dy := Real.sin angle * effectiveSpeed * dt
    let newHead := wrapPoint ⟨head.x + dx, head.y + dy⟩ bounds
    some { snake with
            segments := newHead :: followChain newHead rest angle bounds,
            angle := angle }

/-! Pellet collection and growth (the second `snakes.map` of `tick`). -/

/-- The per-snake pellet scan of `tick`: the `for` loop walks the pellet
array from the highest index down, accumulating `lengthGain` and
removing every pellet within collection radius.  The embedding recurses
on the list, handling the tail (higher indices) first.  Returns
`(lengthGain, remaining pellets, number of pellets removed)`; the third
component models how many `slice().concat()` rebuilds happened (used to
track whether the local `pellets` binding still aliases the caller's
array). -/
def collectForSnake (head : Point) (bounds : Bounds) :
    List Pellet → ℝ × List Pellet × ℕ
  | [] => (0, [], 0)
  | p :: ps =>
    let r := collectForSnake head bounds ps
    if toroidalDistSq head ⟨p.x, p.y⟩ bounds <
        (HEAD_RADIUS + PELLET_RADIUS + MAGNET_RADIUS) * (HEAD_RADIUS + PELLET_RADIUS + MAGNET_RADIUS) then
      (r.1 + p.value, r.2.1, r.2.2 + 1)
    else
      (r.1, p :: r.2.1, r.2.2)

/-- Growth application at the end of the collection `map`: if
`lengthGain > 0`, append `⌈lengthGain⌉` copies of the tail position
(the JavaScript loop `for (g = 0; g < lengthGain; g++)` executes
`⌈lengthGain⌉` times for a positive real bound). -/
def applyGain (snake : Snake) (gain : ℝ) : Snake :=
  if gain ≤ 0 then snake
  else
    let tail := snake.segments.getLast?.getD default
    { snake with segments := snake.segments ++ List.replicate (⌈gain⌉.toNat) tail }

/-- The collection `map` over all snakes; the `pellets` binding is
threaded through sequentially because the source mutates the outer
`pellets` variable inside the `map` callback.  Returns the updated
snakes, the remaining pellets and the total number of pellets removed. -/
def collectPhase (bounds : Bounds) :
    List Snake → List Pellet → List Snake × List Pellet × ℕ
  | [], pellets => ([], pellets, 0)
  | s :: rest, pellets =>
    let head := s.segments.headI
    let r := collectForSnake head bounds pellets
    let s' := applyGain s r.1
    let rec' := collectPhase bounds rest r.2.1
    (s' :: rec'.1, rec'.2.1, r.2.2 + rec'.2.2)

/-! Collision detection and death resolution. -/

/-- Source `headHitsBody(snakeId, head, allSnakes, bounds)`: the head is
within `HEAD_RADIUS + BODY_RADIUS` (toroidal) of a segment of a snake
with a different id. -/
def headHitsBody (snakeId : String) (head : Point) (allSnakes : List Snake)
    (bounds : Bounds) : Prop :=
  ∃ s ∈ allSnakes, s.id ≠ snakeId ∧
    ∃ seg ∈ s.segments,
      toroidalDistSq head seg bounds <
        (HEAD_RADIUS + BODY_RADIUS) * (HEAD_RADIUS + BODY_RADIUS)

/-- The `deadIds` loop of `tick`: iterate over the (post-collection)
snakes, adding the id of every snake whose head hits another snake's
body.  `deadIds` is a JavaScript `Set`, embedded as a duplicate-free
list in insertion order. -/
def computeDeadIds (all : List Snake) (bounds : Bounds) :
    List Snake → List String → List String
  | [], acc => acc
  | s :: rest, acc =>
    let acc' :=
      if headHitsBody s.id s.segments.headI all bounds then
        (if s.id ∈ acc then acc else acc ++ [s.id])
      else acc
    computeDeadIds all bounds rest acc'

/-- The death-pellet loop body: pellets scattered for one dead snake,
sampled from the snake found in the *input* roster (`state.snakes`). -/
def deathPelletsFor (dead : Snake) : List Pellet :=
  let len := dead.segments.length
  let count := max 1 (⌊(len : ℝ) * DEATH_PELLET_FRACTION⌋.toNat)
  let step := max 1 (len / count)
  (List.range count).map (fun i =>
    let idx := min (i * step) (len - 1)
    let seg := dead.segments.getD idx default
    ⟨seg.x, seg.y, PELLET_VALUE⟩)

/-- The number of death pellets the source emits for a dead id, looked
up in a given roster (`state.snakes.find(...)`); `0` if the id is
absent (`if (!dead) continue`). -/
def deathCountFrom (roster : List Snake) (id : String) : ℕ :=
  match roster.find? (fun s => s.id == id) with
  | some dead => max 1 (⌊(dead.segments.length : ℝ) * DEATH_PELLET_FRACTION⌋.toNat)
  | none => 0

/-- The `for (const id of deadIds)` loop of `tick`, appending death
pellets for every dead snake (as found in the input roster). -/
def deathPelletsLoop (roster : List Snake) : List String → List Pellet
  | [] => []
  | id :: rest =>
    (match roster.find? (fun s => s.id == id) with
     | some dead => deathPelletsFor dead
     | none => []) ++ deathPelletsLoop roster rest

/-! The tick orchestrator. -/

/-- The first `snakes.map` of `tick`: apply the target angle (defaulting
to the snake's current heading), the player speed multiplier, and
`moveSnake`.  JavaScript `.map` aborts at the first thrown exception,
which the `Option` recursion mirrors. -/
def movePhase (dt : ℝ) (targetAngles : String → Option ℝ) (psm : ℝ)
    (bounds : Bounds) : List Snake → Option (List Snake)
  | [] => some []
  | s :: rest => do
    let target := (targetAngles s.id).getD s.angle
    let speedMul := if s.isPlayer then psm else 1
    let snakeToMove := if speedMul ≠ 1 then { s with speed := s.speed * speedMul } else s
    let moved ← moveSnake snakeToMove dt target bounds
    let moved := if speedMul ≠ 1 then { moved with speed := s.speed } else moved
    let rest' ← movePhase dt targetAngles psm bounds rest
    some (moved :: rest')

/-- The body of `tick` after the move `map` (all of it total code).

`rx` and `ry` are the oracle values for the two `Math.random()` calls
of the spawn branch.  The result carries, besides the new state and
`deadIds`, the content of the *caller's* pellet array after the call:
the local `pellets` binding starts as an alias of `state.pellets`, is
rebound to a fresh array by the first `slice().concat()` (i.e. exactly
when at least one pellet is collected), and the later `pellets.push`
calls mutate whichever array it then denotes. -/
def tickRest (state : GameState) (dt : ℝ) (rx ry : ℝ) (snakes1 : List Snake) :
    GameState × List String × List Pellet :=
  let bounds := state.bounds
  let minX := ARENA_PADDING
  let maxX := bounds.width - ARENA_PADDING
  let minY := ARENA_PADDING
  let maxY := bounds.height - ARENA_PADDING
  let collected := collectPhase bounds snakes1 state.pellets
  let snakes2 := collected.1
  let pellets2 := collected.2.1
  let deadIds := computeDeadIds snakes2 bounds snakes2 []
  let snakes3 := snakes2.filter (fun s => !(deadIds.contains s.id))
  let pellets3 := pellets2 ++ deathPelletsLoop state.snakes deadIds
  let nps := state.nextPelletSpawn - dt
  let spawned :=
    if nps ≤ 0 then
      (pellets3 ++ [⟨minX + rx * (maxX - minX), minY + ry * (maxY - minY), PELLET_VALUE⟩],
       PELLET_SPAWN_INTERVAL)
    else (pellets3, nps)
  let callerPellets := if collected.2.2 = 0 then spawned.1 else state.pellets
  ({ state with
      snakes := snakes3,
      pellets := spawned.1,
      nextPelletSpawn := spawned.2 },
   deadIds,
   callerPellets)

/-- Source `tick(state, dt, targetAngles, options)`: move all snakes
(`movePhase`), then run the rest of the tick body (`tickRest`). -/
def tick (state : GameState) (dt : ℝ) (targetAngles : String → Option ℝ)
    (options : Option ℝ) (rx ry : ℝ) :
    Option (GameState × List String × List Pellet) := do
  let psm := options.getD 1
  let snakes1 ← movePhase dt targetAngles psm state.bounds state.snakes
  some (tickRest state dt rx ry snakes1)

/-! Bot AI (`botAI.js`): obstacle avoidance. -/

/-- JavaScript `Math.atan2(y, x)` on the reals. -/
def atan2 (y x : ℝ) : ℝ :=
  if x > 0 then Real.arctan (y / x)
  else if x < 0 ∧ y ≥ 0 then Real.arctan (y / x) + Real.pi
  else if x < 0 ∧ y < 0 then Real.arctan (y / x) - Real.pi
  else if x = 0 ∧ y > 0 then Real.pi / 2
  else if x = 0 ∧ y < 0 then -(Real.pi / 2)
  else 0

/-- The inner loop body of `avoidObstacles`, updating the running
repulsion vector.  Note the source reads `snake.segments[0]` on every
iteration (the loop index `i` is unused in the body) and *subtracts*
the unit vector `head - seg` scaled by the strength. -/
def repulsionStep (head : Point) (snake : Snake) (rep : Point) : Point :=
  let r := HEAD_RADIUS + BODY_RADIUS + DANGER_RADIUS
  let rSq := r * r
  let seg := snake.segments.headI
  let d := planarDistSq head ⟨seg.x, seg.y⟩
  if d < rSq ∧ d > 1 then
    let dist := Real.sqrt d
    let strength := 1 - dist / Real.sqrt rSq
    ⟨rep.x - (head.x - seg.x) / dist * strength,
     rep.y - (head.y - seg.y) / dist * strength⟩
  else rep

/-- The `for (let i = start; i < snake.segments.length; i++)` loop of
`avoidObstacles` for one snake: `start` is `1` for the bot itself and
`0` for every other snake; the body runs once per index but always
inspects `segments[0]`. -/
def repulsionForSnake (head : Point) (selfId : String) (snake : Snake)
    (rep : Point) : Point :=
  let start := if snake.id == selfId then 1 else 0
  (List.range (snake.segments.length - start)).foldl
    (fun acc _ => repulsionStep head snake acc) rep

/-- Source `avoidObstacles(head, self, allSnakes)`: accumulate the
repulsion vector over all snakes, return `null` when its magnitude is
below `100`, otherwise the angle of the vector. -/
def avoidObstacles (head : Point) (self : Snake) (allSnakes : List Snake) :
    Option ℝ :=
  let repulsion := allSnakes.foldl
    (fun acc snake => repulsionForSnake head self.id snake acc) ⟨0, 0⟩
  let mag := Real.sqrt (repulsion.x * repulsion.x + repulsion.y * repulsion.y)
  if mag < 100 then none else some (atan2 repulsion.y repulsion.x)

/-! Initial state creation (`createInitialState`). -/

/-- The color palette of `createInitialState`. -/
def colorsList : List String :=
  ["#33cc33", "#e74c3c", "#3498db", "#f1c40f", "#9b59b6", "#1abc9c", "#e67e22", "#2ecc71"]

/-- The `do … while (usedPositions.has(key))` loop drawing a bot's
starting position: draw `x` and `y` from the oracle, compute the
50-pixel grid key, retry on collision.  The key string
`"⌊x/50⌋,⌊y/50⌋"` is embedded as the pair of integers.  `fuel` bounds
the number of retries; the JavaScript loop may spin forever, which the
embedding maps to `none`.  Returns `(x, y, key, next oracle index)`. -/
def pickPosition (rng : ℕ → ℝ) (minX maxX minY maxY : ℝ)
    (used : List (ℤ × ℤ)) : ℕ → ℕ → Option (ℝ × ℝ × (ℤ × ℤ) × ℕ)
  | 0, _ => none
  | fuel + 1, i =>
    let x := minX + rng i * (maxX - minX)
    let y := minY + rng (i + 1) * (maxY - minY)
    let key : ℤ × ℤ := (⌊x / 50⌋, ⌊y / 50⌋)
    if key ∈ used then pickPosition rng minX maxX minY maxY used fuel (i + 2)
    else some (x, y, key, i + 2)

/-- The body-construction loop of `createInitialState`: segment `s` sits
`s · SEGMENT_SPACING` behind the head along the drawn heading (the
positions are *not* wrapped and not clamped to the arena). -/
def initialSegments (x y angle : ℝ) : List Point :=
  (List.range INITIAL_LENGTH).map (fun (s : ℕ) =>
    ⟨x - Real.cos angle * (s : ℝ) * SEGMENT_SPACING,
     y - Real.sin angle * (s : ℝ) * SEGMENT_SPACING⟩)

/-- The `for (let i = 0; i < numBots; i++)` loop of
`createInitialState`, drawing a fresh position (with retries), a
heading, and building each snake.  `botIdx` is the loop counter `i`,
`i` the oracle index, `used` the `usedPositions` set. -/
def mkBots (rng : ℕ → ℝ) (minX maxX minY maxY : ℝ) (fuel : ℕ) :
    ℕ → ℕ → ℕ → List (ℤ × ℤ) → Option (List Snake × ℕ)
  | 0, _, i, _ => some ([], i)
  | count + 1, botIdx, i, used => do
    let pos ← pickPosition rng minX maxX minY maxY used fuel i
    let x := pos.1
    let y := pos.2.1
    let key := pos.2.2.1
    let i' := pos.2.2.2
    let angle := rng i' * 2 * Real.pi - Real.pi
    let isPlayer := botIdx = 0
    let snake : Snake :=
    { id := if isPlayer then "player" else "snake-" ++ toString botIdx,
      segments := initialSegments x y angle,
      angle := angle,
      speed := DEFAULT_SPEED,
      turnSpeed := TURN_SPEED,
      color := if isPlayer then "#00ff88" else (colorsList.getD (botIdx % colorsList.length) ""),
      isPlayer := isPlayer }
    let rest ← mkBots rng minX maxX minY maxY fuel count (botIdx + 1) (i' + 1) (used ++ [key])
    some (snake :: rest.1, rest.2)

/-- The snake built by one iteration of the bot loop, as a function of
the drawn position tuple (used to state the unfolding equation of
`mkBots`). -/
def mkBotSnake (rng : ℕ → ℝ) (botIdx : ℕ) (pos : ℝ × ℝ × (ℤ × ℤ) × ℕ) : Snake :=
  { id := if botIdx = 0 then "player" else "snake-" ++ toString botIdx,
    segments := initialSegments pos.1 pos.2.1 (rng pos.2.2.2 * 2 * Real.pi - Real.pi),
    angle := rng pos.2.2.2 * 2 * Real.pi - Real.pi,
    speed := DEFAULT_SPEED,
    turnSpeed := TURN_SPEED,
    color := if botIdx = 0 then "#00ff88" else (colorsList.getD (botIdx % colorsList.length) ""),
    isPlayer := botIdx = 0 }

/-- The pellet-creation loop of `createInitialState`: `n` pellets at
uniformly drawn padded positions, consuming two oracle values each. -/
def mkPellets (rng : ℕ → ℝ) (minX maxX minY maxY : ℝ) :
    ℕ → ℕ → List Pellet
  | 0, _ => []
  | n + 1, i =>
    ⟨minX + rng i * (maxX - minX), minY + rng (i + 1) * (maxY - minY), PELLET_VALUE⟩ ::
      mkPellets rng minX maxX minY maxY n (i + 2)

/-- Source `createInitialState(options)`.  Unsupplied options default to
a 6000×6000 arena, 8 bots and 80 pellets.  The oracle `rng` supplies
the `Math.random()` values in call order; `fuel` bounds the retries of
each position-drawing loop (`none` models divergence of the
JavaScript `do … while`). -/
def createInitialState (rng : ℕ → ℝ) (fuel : ℕ) (boundsOpt : Option Bounds)
    (numBotsOpt numPelletsOpt : Option ℕ) : Option GameState := do
  let bounds := boundsOpt.getD ⟨6000, 6000⟩
  let numBots := numBotsOpt.getD 8
  let numPellets := numPelletsOpt.getD 80
  let minX := ARENA_PADDING
  let maxX := bounds.width - ARENA_PADDING
  let minY := ARENA_PADDING
  let maxY := bounds.height - ARENA_PADDING
  let bots ← mkBots rng minX maxX minY maxY fuel numBots 0 0 []
  let pellets := mkPellets rng minX maxX minY maxY numPellets bots.2
  some { snakes := bots.1,
         pellets := pellets,
         bounds := bounds,
         nextSnakeId := numBots,
         nextPelletSpawn := PELLET_SPAWN_INTERVAL }

/-! Spec-side definitions (phrased from the spec's words, for
comparison with the source embedding). -/

/-- The pellet-collection condition of the source's per-snake scan. -/
def pelletInRange (head : Point) (bounds : Bounds) (p : Pellet) : Prop :=
  toroidalDistSq head ⟨p.x, p.y⟩ bounds <
    (HEAD_RADIUS + PELLET_RADIUS + MAGNET_RADIUS) *
      (HEAD_RADIUS + PELLET_RADIUS + MAGNET_RADIUS)

/-- Boolean form of `pelletInRange` (for `List.filter` and
`List.countP`). -/
def pelletInRangeB (head : Point) (bounds : Bounds) (p : Pellet) : Bool :=
  decide (pelletInRange head bounds p)

/-- The collection phase as the spec describes it: snakes are served in
roster order; each snake gains the values of exactly those pellets that
are within its collection radius and were not already taken by an
earlier snake; a taken pellet is gone for all later snakes. -/
def collectSpec (bounds : Bounds) : List Snake → List Pellet → List Snake
  | [], _ => []
  | s :: rest, pellets =>
    applyGain s
        (((pellets.filter (fun p => pelletInRangeB s.segments.headI bounds p)).map
            Pellet.value).sum) ::
      collectSpec bounds rest
        (pellets.filter (fun p => !(pelletInRangeB s.segments.headI bounds p)))

/-! Concrete fixtures for witnesses and counterexamples. -/

def bounds1000 : Bounds := ⟨1000, 1000⟩

/-- A one-segment snake at a given position, heading `0`. -/
def mkSimpleSnake (id : String) (p : Point) : Snake :=
  ⟨id, [p], 0, 600, 6, "", false⟩

/-- Two one-segment snakes whose heads are 10 apart: each head is within
collision radius 30 of the other's body. -/
def stateC1 : GameState :=
  ⟨[mkSimpleSnake "a" ⟨500, 500⟩, mkSimpleSnake "b" ⟨510, 500⟩], [], bounds1000, 2, 2⟩

/-- A two-segment snake in a tiny (10 × 10) arena. -/
def snakeC2 : Snake := ⟨"c", [⟨0, 0⟩, ⟨8, 0⟩], 0, 600, 6, "", false⟩

def boundsC2 : Bounds := ⟨10, 10⟩

/-- A two-segment snake in a normal arena. -/
def snakeW2 : Snake := ⟨"w", [⟨500, 500⟩, ⟨508, 500⟩], 0, 600, 6, "", false⟩

/-- A three-segment snake that will both collect a pellet and die. -/
def snakeA3 : Snake := ⟨"a", [⟨500, 500⟩, ⟨508, 500⟩, ⟨516, 500⟩], 0, 600, 6, "", false⟩

def snakeB3 : Snake := ⟨"b", [⟨510, 500⟩], 0, 600, 6, "", false⟩

/-- Snake `a` after collecting the value-5 pellet: five tail copies are
appended. -/
def snakeA3g : Snake :=
  { snakeA3 with segments := snakeA3.segments ++ List.replicate 5 ⟨516, 500⟩ }

/-- Snake `a` collects the value-5 pellet under its head and dies against
snake `b` (and vice versa) in the same tick. -/
def stateC3 : GameState := ⟨[snakeA3, snakeB3], [⟨500, 500, 5⟩], bounds1000, 2, 2⟩

/-- A state with no snakes whose spawn timer fires on a `dt = 3` tick. -/
def stateC3w : GameState := ⟨[], [], bounds1000, 0, 2⟩

/-- Two colliding snakes and no pellets: nothing is collected, so the
death pellets are pushed onto the caller's pellet array. -/
def stateC5 : GameState :=
  ⟨[mkSimpleSnake "a" ⟨500, 500⟩, mkSimpleSnake "b" ⟨510, 500⟩], [], bounds1000, 2, 2⟩

def stateC5w : GameState := ⟨[], [], bounds1000, 0, 2⟩

/-- A snake with zero segments (malformed input). -/
def emptySnake : Snake := ⟨"e", [], 0, 600, 6, "", false⟩

/-- A malformed snake together with a healthy one. -/
def stateC6 : GameState :=
  ⟨[emptySnake, mkSimpleSnake "h" ⟨100, 100⟩], [], bounds1000, 2, 2⟩

/-- A bot at the origin. -/
def botC4 : Snake := ⟨"bot", [⟨0, 0⟩], 0, 600, 6, "", false⟩

/-- A 110-segment snake whose every segment sits at `(2, 0)`, right next
to the bot's head. -/
def otherC4 : Snake := ⟨"other", List.replicate 110 ⟨2, 0⟩, 0, 600, 6, "", false⟩

/-- Two one-segment snakes far apart: neither head is anywhere near the
other's body. -/
def stateC9 : GameState :=
  ⟨[mkSimpleSnake "a" ⟨100, 100⟩, mkSimpleSnake "b" ⟨500, 500⟩], [], bounds1000, 2, 2⟩

/-- A deterministic oracle for `createInitialState`: bot positions
`(40,40)`, `(500,500)`, `(270,270)` (distinct 50-pixel grid cells),
all headings `0`, all pellets at `(500,500)`. -/
def rngC8 : ℕ → ℝ :=
  fun n => if n ≤ 1 then 0 else if n = 6 ∨ n = 7 then 1 / 4 else 1 / 2

/-- The three bots `createInitialState` builds from `rngC8`. -/
def botC8_0 : Snake := mkBotSnake rngC8 0 (40, 40, (0, 0), 2)

def botC8_1 : Snake := mkBotSnake rngC8 1 (500, 500, (10, 10), 5)

def botC8_2 : Snake := mkBotSnake rngC8 2 (270, 270, (5, 5), 8)

/-- The state `createInitialState rngC8 1 (1000×1000, 3 bots, 5 pellets)`
returns. -/
def stC8 : GameState :=
  ⟨[botC8_0, botC8_1, botC8_2], mkPellets rngC8 40 960 40 960 5 9,
    ⟨1000, 1000⟩, 3, PELLET_SPAWN_INTERVAL⟩

/-- The direct (non-wrapping) path from `a` to `b` is already a shortest
path on the torus: no integer number of wraps on either axis gives a
strictly shorter displacement. -/
def directIsShortest (a b : Point) (bounds : Bounds) : Prop :=
  ∀ k l : ℤ, planarDistSq a b ≤
    (b.x - a.x + (k : ℝ) * bounds.width) * (b.x - a.x + (k : ℝ) * bounds.width) +
    (b.y - a.y + (l : ℝ) * bounds.height) * (b.y - a.y + (l : ℝ) * bounds.height)

/-! Helper lemmas about the per-axis toroidal reduction
`δ ↦ δ - w * round (δ / w)`. -/

/-- The per-axis reduction used by `toroidalDistSq` and `chainStep`. -/
def redC (δ w : ℝ) : ℝ := δ - w * (round (δ / w) : ℝ)

theorem toroidalDistSq_def (a b : Point) (bounds : Bounds) :
    toroidalDistSq a b bounds =
      redC (b.x - a.x) bounds.width * redC (b.x - a.x) bounds.width +
      redC (b.y - a.y) bounds.height * redC (b.y - a.y) bounds.height := rfl

theorem redC_add_int_mul (δ w : ℝ) (hw : w ≠ 0) (m : ℤ) :
    redC (δ + (m : ℝ) * w) w = redC δ w := by
  unfold redC
  have h : (δ + (m : ℝ) * w) / w = δ / w + (m : ℝ) := by
    field_simp
  rw [h]
  push_cast [round_add_int]
  ring

theorem abs_redC_le_half (δ w : ℝ) (hw : 0 < w) : |redC δ w| ≤ w / 2 := by
  have h1 : redC δ w = w * (δ / w - (round (δ / w) : ℝ)) := by
    unfold redC; field_simp
  rw [h1, abs_mul, abs_of_pos hw]
  have h2 := abs_sub_round (δ / w)
  nlinarith [abs_nonneg (δ / w - (round (δ / w) : ℝ))]

theorem redC_sq_of_abs_le (δ w : ℝ) (hw : 0 < w) (h : |δ| ≤ w / 2) :
    redC δ w * redC δ w = δ * δ := by
  have hw' : w ≠ 0 := ne_of_gt hw
  have hd : |δ / w| ≤ 1 / 2 := by
    rw [abs_div, abs_of_pos hw, div_le_div_iff₀ hw (by norm_num)]
    nlinarith
  rcases lt_or_eq_of_le (abs_le.mp hd).2 with hlt | heq
  · have h0 : round (δ / w) = 0 := by
      rw [round_eq]
      have := (abs_le.mp hd).1
      have : (0:ℝ) ≤ δ / w + 1/2 := by linarith
      have h1 : δ / w + 1/2 < 1 := by linarith
      rw [Int.floor_eq_zero_iff]
      constructor <;> [linarith; simpa using h1]
    unfold redC
    rw [h0, Int.cast_zero, mul_zero, sub_zero]

  · have hδ : δ = w / 2 := by
      have h2 : δ / w = 1 / 2 := heq
      field_simp at h2
      linarith
    have h1 : round (δ / w) = 1 := by
      rw [heq, round_eq]
      norm_num
    unfold redC
    rw [h1, hδ]
    push_cast
    ring

theorem redC_sq_le_shift (δ w : ℝ) (hw : 0 < w) (m : ℤ) :
    redC δ w * redC δ w ≤ (δ + (m : ℝ) * w) * (δ + (m : ℝ) * w) := by
  have hhalf := abs_redC_le_half δ w hw
  have hkey : |redC δ w| ≤ |δ + (m : ℝ) * w| := by
    rcases eq_or_ne (round (δ / w) + m) 0 with h0 | h0
    · have : δ + (m : ℝ) * w = redC δ w := by
        unfold redC
        have : (m : ℝ) = -((round (δ / w) : ℤ) : ℝ) := by
          have hm : (m : ℤ) = -(round (δ / w)) := by omega
          exact_mod_cast congrArg (fun z : ℤ => (z : ℝ)) hm
        rw [this]; ring
      rw [this]
    · have hsum : δ + (m : ℝ) * w = redC δ w + ((round (δ / w) + m : ℤ) : ℝ) * w := by
        unfold redC; push_cast; ring
      have habs : (1:ℝ) ≤ |((round (δ / w) + m : ℤ) : ℝ)| := by
        rw [← Int.cast_abs]
        exact_mod_cast Int.one_le_abs h0
      have hws : w ≤ |((round (δ / w) + m : ℤ) : ℝ) * w| := by
        rw [abs_mul, abs_of_pos hw]
        nlinarith
      have h3 := abs_sub_abs_le_abs_sub (((round (δ / w) + m : ℤ) : ℝ) * w) (-(redC δ w))
      rw [abs_neg, sub_neg_eq_add] at h3
      calc |redC δ w| ≤ w / 2 := hhalf
        _ ≤ |((round (δ / w) + m : ℤ) : ℝ) * w| - w / 2 := by linarith
        _ ≤ |((round (δ / w) + m : ℤ) : ℝ) * w + redC δ w| := by linarith
        _ = |δ + (m : ℝ) * w| := by rw [hsum]; ring_nf
  calc redC δ w * redC δ w = |redC δ w| * |redC δ w| := by rw [← abs_mul, abs_mul_self]
    _ ≤ |δ + (m : ℝ) * w| * |δ + (m : ℝ) * w| := by
        exact mul_le_mul hkey hkey (abs_nonneg _) (abs_nonneg _)
    _ = (δ + (m : ℝ) * w) * (δ + (m : ℝ) * w) := by rw [← abs_mul, abs_mul_self]

theorem redC_as_shift (δ w : ℝ) :
    redC δ w = δ + ((-(round (δ / w)) : ℤ) : ℝ) * w := by
  unfold redC; push_cast; ring

/-- Claim C7: for all points and bounds with positive width and height,
`toroidalDistSq` is at most the planar squared distance (`distSq` of
`botAI.js`), with equality exactly when the direct path is already a
shortest one on the torus. -/
theorem toroidalDistSq_le_planar_iff_direct (a b : Point) (bounds : Bounds)
    (hw : 0 < bounds.width) (hh : 0 < bounds.height) :
    toroidalDistSq a b bounds ≤ planarDistSq a b ∧
      (toroidalDistSq a b bounds = planarDistSq a b ↔ directIsShortest a b bounds) := by
  set dx := b.x - a.x with hdx
  set dy := b.y - a.y with hdy
  have htor : toroidalDistSq a b bounds =
      redC dx bounds.width * redC dx bounds.width +
      redC dy bounds.height * redC dy bounds.height := toroidalDistSq_def a b bounds
  have hplan : planarDistSq a b = dx * dx + dy * dy := rfl
  have hx0 : redC dx bounds.width * redC dx bounds.width ≤ dx * dx := by
    have := redC_sq_le_shift dx bounds.width hw 0
    simpa using this
  have hy0 : redC dy bounds.height * redC dy bounds.height ≤ dy * dy := by
    have := redC_sq_le_shift dy bounds.height hh 0
    simpa using this
  have hle : toroidalDistSq a b bounds ≤ planarDistSq a b := by
    rw [htor, hplan]; linarith
  refine ⟨hle, ?_, ?_⟩
  · intro heq k l
    have hxk := redC_sq_le_shift dx bounds.width hw k
    have hyl := redC_sq_le_shift dy bounds.height hh l
    rw [← heq, htor]
    exact add_le_add hxk hyl
  · intro hshort
    have h1 := hshort (-(round (dx / bounds.width))) (-(round (dy / bounds.height)))
    rw [← redC_as_shift, ← redC_as_shift, ← htor] at h1
    linarith

/-- Witness for claim C7 at the concrete input `a = (0,0)`, `b = (3,4)`,
bounds `10 × 10`. -/
theorem toroidalDistSq_le_planar_iff_direct_witness :
    (0 : ℝ) < (10 : ℝ) ∧
      (toroidalDistSq ⟨0, 0⟩ ⟨3, 4⟩ ⟨10, 10⟩ ≤ planarDistSq ⟨0, 0⟩ ⟨3, 4⟩ ∧
        (toroidalDistSq ⟨0, 0⟩ ⟨3, 4⟩ ⟨10, 10⟩ = planarDistSq ⟨0, 0⟩ ⟨3, 4⟩ ↔
          directIsShortest ⟨0, 0⟩ ⟨3, 4⟩ ⟨10, 10⟩)) :=
  ⟨by norm_num,
   toroidalDistSq_le_planar_iff_direct ⟨0, 0⟩ ⟨3, 4⟩ ⟨10, 10⟩ (by norm_num) (by norm_num)⟩

/-! Lemmas for claim C2: the follow-the-leader chain keeps consecutive
segments at toroidal distance exactly `SEGMENT_SPACING`, provided the
arena is at least `2 · SEGMENT_SPACING` wide and tall. -/

theorem wrapCoord_eq_add_int (x w : ℝ) :
    ∃ m : ℤ, wrapCoord x w = x + (m : ℝ) * w := by
  refine ⟨1 - jsTrunc (x / w) - jsTrunc ((jsMod x w + w) / w), ?_⟩
  unfold wrapCoord jsMod
  push_cast
  ring

theorem toroidalDistSq_wrap (a b : Point) (bounds : Bounds)
    (hw : bounds.width ≠ 0) (hh : bounds.height ≠ 0) :
    toroidalDistSq a (wrapPoint b bounds) bounds = toroidalDistSq a b bounds := by
  obtain ⟨mx, hmx⟩ := wrapCoord_eq_add_int b.x bounds.width
  obtain ⟨my, hmy⟩ := wrapCoord_eq_add_int b.y bounds.height
  rw [toroidalDistSq_def, toroidalDistSq_def]
  show redC ((wrapPoint b bounds).x - a.x) bounds.width *
        redC ((wrapPoint b bounds).x - a.x) bounds.width +
      redC ((wrapPoint b bounds).y - a.y) bounds.height *
        redC ((wrapPoint b bounds).y - a.y) bounds.height = _
  have hx : (wrapPoint b bounds).x - a.x = (b.x - a.x) + (mx : ℝ) * bounds.width := by
    show wrapCoord b.x bounds.width - a.x = _
    rw [hmx]; ring
  have hy : (wrapPoint b bounds).y - a.y = (b.y - a.y) + (my : ℝ) * bounds.height := by
    show wrapCoord b.y bounds.height - a.y = _
    rw [hmy]; ring
  rw [hx, hy, redC_add_int_mul _ _ hw, redC_add_int_mul _ _ hh]

theorem step_dist (prev : Point) (u v : ℝ) (bounds : Bounds)
    (huv : u * u + v * v = 64) (hu : |u| ≤ 8) (hv : |v| ≤ 8)
    (hw : 16 ≤ bounds.width) (hh : 16 ≤ bounds.height) :
    toroidalDistSq prev (wrapPoint ⟨prev.x + u, prev.y + v⟩ bounds) bounds = 64 := by
  have hw0 : (0 : ℝ) < bounds.width := by linarith
  have hh0 : (0 : ℝ) < bounds.height := by linarith
  rw [toroidalDistSq_wrap prev _ bounds (ne_of_gt hw0) (ne_of_gt hh0),
    toroidalDistSq_def]
  show redC (prev.x + u - prev.x) bounds.width * redC (prev.x + u - prev.x) bounds.width +
    redC (prev.y + v - prev.y) bounds.height * redC (prev.y + v - prev.y) bounds.height = 64
  have e1 : prev.x + u - prev.x = u := by ring
  have e2 : prev.y + v - prev.y = v := by ring
  rw [e1, e2, redC_sq_of_abs_le u _ hw0 (by linarith),
    redC_sq_of_abs_le v _ hh0 (by linarith)]
  exact huv

theorem chainStep_dist (prev curr : Point) (angle : ℝ) (bounds : Bounds)
    (hw : 16 ≤ bounds.width) (hh : 16 ≤ bounds.height) :
    toroidalDistSq prev (chainStep prev curr angle bounds) bounds = 64 := by
  rw [chainStep]
  set tdx := curr.x - prev.x - bounds.width * (round ((curr.x - prev.x) / bounds.width) : ℝ) with htdx
  set tdy := curr.y - prev.y - bounds.height * (round ((curr.y - prev.y) / bounds.height) : ℝ) with htdy
  set d := Real.sqrt (tdx * tdx + tdy * tdy) with hd
  by_cases hdeg : d ≤ 1 / 1000000
  · rw [if_pos hdeg]
    have hpt : (⟨prev.x - Real.cos angle * SEGMENT_SPACING,
                 prev.y - Real.sin angle * SEGMENT_SPACING⟩ : Point) =
        ⟨prev.x + (-(Real.cos angle * 8)), prev.y + (-(Real.sin angle * 8))⟩ := by
      show Point.mk _ _ = Point.mk _ _
      have hsp : SEGMENT_SPACING = (8 : ℝ) := rfl
      rw [hsp]
      congr 1
    rw [hpt]
    apply step_dist prev _ _ bounds _ _ _ hw hh
    · have h1 := Real.sin_sq_add_cos_sq angle
      nlinarith [h1]
    · have hc := Real.neg_one_le_cos angle
      have hc' := Real.cos_le_one angle
      rw [abs_le]
      constructor <;> nlinarith
    · have hs := Real.neg_one_le_sin angle
      have hs' := Real.sin_le_one angle
      rw [abs_le]
      constructor <;> nlinarith
  · rw [if_neg hdeg]
    push_neg at hdeg
    have hd0 : 0 < d := lt_trans (by norm_num) hdeg
    have hdne : d ≠ 0 := ne_of_gt hd0
    have hsum_nonneg : (0 : ℝ) ≤ tdx * tdx + tdy * tdy := by nlinarith
    have hd2 : d * d = tdx * tdx + tdy * tdy := Real.mul_self_sqrt hsum_nonneg
    have hxd : |tdx| ≤ d := by
      rw [← Real.sqrt_mul_self_eq_abs, hd]
      exact Real.sqrt_le_sqrt (by nlinarith)
    have hyd : |tdy| ≤ d := by
      rw [← Real.sqrt_mul_self_eq_abs, hd]
      exact Real.sqrt_le_sqrt (by nlinarith)
    have hpt : (⟨prev.x + tdx / d * SEGMENT_SPACING,
                 prev.y + tdy / d * SEGMENT_SPACING⟩ : Point) =
        ⟨prev.x + tdx / d * 8, prev.y + tdy / d * 8⟩ := rfl
    rw [hpt]
    apply step_dist prev _ _ bounds _ _ _ hw hh
    · field_simp
      nlinarith [hd2]
    · rw [abs_mul, abs_div, abs_of_pos hd0]
      have h8 : |(8 : ℝ)| = 8 := by norm_num
      rw [h8]
      have : |tdx| / d ≤ 1 := by
        rw [div_le_one hd0]; exact hxd
      nlinarith [abs_nonneg tdx, this]
    · rw [abs_mul, abs_div, abs_of_pos hd0]
      have h8 : |(8 : ℝ)| = 8 := by norm_num
      rw [h8]
      have : |tdy| / d ≤ 1 := by
        rw [div_le_one hd0]; exact hyd
      nlinarith [abs_nonneg tdy, this]

/-! Evaluation helpers for concrete inputs. -/

theorem wrapCoord_of_mem (x w : ℝ) (h0 : 0 ≤ x) (h1 : x < w) : wrapCoord x w = x := by
  have hw : 0 < w := lt_of_le_of_lt h0 h1
  have hfl : ⌊x / w⌋ = 0 :=
    Int.floor_eq_zero_iff.mpr ⟨div_nonneg h0 hw.le, by rwa [div_lt_one hw]⟩
  have ht1 : jsTrunc (x / w) = 0 := by
    unfold jsTrunc
    rw [if_neg (not_lt.mpr (div_nonneg h0 hw.le))]
    exact hfl
  have hm1 : jsMod x w = x := by
    unfold jsMod
    rw [ht1, Int.cast_zero, mul_zero, sub_zero]
  have ht2 : jsTrunc ((x + w) / w) = 1 := by
    unfold jsTrunc
    rw [if_neg (not_lt.mpr (div_nonneg (by linarith) hw.le))]
    have hq : (x + w) / w = x / w + 1 := by field_simp
    rw [hq, Int.floor_add_one, hfl]
    norm_num
  unfold wrapCoord
  rw [hm1]
  unfold jsMod
  rw [ht2, Int.cast_one, mul_one]
  ring

theorem wrapCoord_of_neg (x w : ℝ) (h0 : -w < x) (h1 : x < 0) : wrapCoord x w = x + w := by
  have hw : 0 < w := by linarith
  have ht1 : jsTrunc (x / w) = 0 := by
    unfold jsTrunc
    rw [if_pos (div_neg_of_neg_of_pos h1 hw)]
    refine Int.ceil_eq_zero_iff.mpr ⟨?_, ?_⟩
    · show (-1 : ℝ) < x / w
      rw [neg_lt, ← neg_div, div_lt_one hw]
      linarith
    · exact (div_neg_of_neg_of_pos h1 hw).le
  have hm1 : jsMod x w = x := by
    unfold jsMod
    rw [ht1, Int.cast_zero, mul_zero, sub_zero]
  have ht2 : jsTrunc ((x + w) / w) = 0 := by
    unfold jsTrunc
    rw [if_neg (not_lt.mpr (div_nonneg (by linarith) hw.le))]
    exact Int.floor_eq_zero_iff.mpr
      ⟨div_nonneg (by linarith) hw.le, by rw [div_lt_one hw]; linarith⟩
  unfold wrapCoord
  rw [hm1]
  unfold jsMod
  rw [ht2, Int.cast_zero, mul_zero, sub_zero]

theorem wrapPoint_of_mem (p : Point) (bounds : Bounds)
    (hx0 : 0 ≤ p.x) (hx1 : p.x < bounds.width)
    (hy0 : 0 ≤ p.y) (hy1 : p.y < bounds.height) : wrapPoint p bounds = p := by
  unfold wrapPoint
  rw [wrapCoord_of_mem _ _ hx0 hx1, wrapCoord_of_mem _ _ hy0 hy1]

theorem normalizeAngle_of_mem (a : ℝ) (h1 : -Real.pi ≤ a) (h2 : a ≤ Real.pi) :
    normalizeAngle a = a := by
  unfold normalizeAngle
  rw [if_neg (not_lt.mpr h2), if_neg (not_lt.mpr h1)]

theorem toroidalDistSq_of_close (a b : Point) (bounds : Bounds)
    (hw : 0 < bounds.width) (hh : 0 < bounds.height)
    (hx : |b.x - a.x| ≤ bounds.width / 2) (hy : |b.y - a.y| ≤ bounds.height / 2) :
    toroidalDistSq a b bounds = planarDistSq a b := by
  rw [toroidalDistSq_def, redC_sq_of_abs_le _ _ hw hx, redC_sq_of_abs_le _ _ hh hy]
  rfl

theorem chainStep_eval (prev curr : Point) (angle : ℝ) (bounds : Bounds)
    (kx ky : ℤ) (tdx tdy dd : ℝ)
    (hkx : round ((curr.x - prev.x) / bounds.width) = kx)
    (hky : round ((curr.y - prev.y) / bounds.height) = ky)
    (htdx : curr.x - prev.x - bounds.width * (kx : ℝ) = tdx)
    (htdy : curr.y - prev.y - bounds.height * (ky : ℝ) = tdy)
    (hdd : Real.sqrt (tdx * tdx + tdy * tdy) = dd)
    (hnd : ¬ (dd ≤ 1 / 1000000)) :
    chainStep prev curr angle bounds =
      wrapPoint ⟨prev.x + tdx / dd * SEGMENT_SPACING,
                 prev.y + tdy / dd * SEGMENT_SPACING⟩ bounds := by
  simp only [chainStep]
  rw [hkx, hky, htdx, htdy, hdd, if_neg hnd]

/-- Evaluation of `moveSnake` at `dt = 0`: the heading does not change
(assuming it is already normalized) and the head does not move
(assuming it lies inside the arena). -/
theorem moveSnake_dt_zero (snake : Snake) (targetAngle : ℝ) (bounds : Bounds)
    (head : Point) (rest : List Point)
    (hseg : snake.segments = head :: rest)
    (h1 : -Real.pi ≤ snake.angle) (h2 : snake.angle ≤ Real.pi)
    (hx0 : 0 ≤ head.x) (hx1 : head.x < bounds.width)
    (hy0 : 0 ≤ head.y) (hy1 : head.y < bounds.height) :
    moveSnake snake 0 targetAngle bounds =
      some { snake with segments := head :: followChain head rest snake.angle bounds } := by
  have hna : normalizeAngle snake.angle = snake.angle := normalizeAngle_of_mem _ h1 h2
  have hwp : wrapPoint ⟨head.x, head.y⟩ bounds = head :=
    wrapPoint_of_mem head bounds hx0 hx1 hy0 hy1
  have hmin : min (1 : ℝ) 0 = 0 := min_eq_right zero_le_one
  simp only [moveSnake, hseg, mul_zero, hmin, add_zero, hna, hwp]

/-! Lemmas for claim C2, continued: the chain invariant, and the claim
theorems. -/

theorem followChain_spacing (angle : ℝ) (bounds : Bounds)
    (hw : 16 ≤ bounds.width) (hh : 16 ≤ bounds.height) (rest : List Point) :
    ∀ prev : Point,
      List.Chain' (fun p q => toroidalDistSq p q bounds = 64)
        (prev :: followChain prev rest angle bounds) := by
  induction rest with
  | nil => intro prev; simp [followChain]
  | cons curr rest' ih =>
    intro prev
    simp only [followChain]
    exact List.chain'_cons.mpr
      ⟨chainStep_dist prev curr angle bounds hw hh, ih (chainStep prev curr angle bounds)⟩

/-- Claim C2 (amended): for every snake with at least one segment, every
`dt` and `targetAngle`, and all bounds at least `2 · SEGMENT_SPACING`
wide and tall, every pair of consecutive segments of the snake returned
by `moveSnake` is at toroidal distance exactly `SEGMENT_SPACING`
(stated on squared distances).  The size hypothesis is forced by the
counterexample below: in arenas narrower than two spacings the wrapped
step is strictly shorter. -/
theorem moveSnake_consecutive_spacing (snake : Snake) (dt targetAngle : ℝ)
    (bounds : Bounds) (s' : Snake)
    (hw : 2 * SEGMENT_SPACING ≤ bounds.width)
    (hh : 2 * SEGMENT_SPACING ≤ bounds.height)
    (hmv : moveSnake snake dt targetAngle bounds = some s') :
    List.Chain' (fun p q =>
      toroidalDistSq p q bounds = SEGMENT_SPACING * SEGMENT_SPACING) s'.segments := by
  have hsp : (2 : ℝ) * SEGMENT_SPACING = 16 := by norm_num [SEGMENT_SPACING]
  rw [hsp] at hw hh
  have hs2 : SEGMENT_SPACING * SEGMENT_SPACING = (64 : ℝ) := by norm_num [SEGMENT_SPACING]
  simp only [hs2]
  cases hseg : snake.segments with
  | nil => simp [moveSnake, hseg] at hmv
  | cons head rest =>
    simp only [moveSnake, hseg] at hmv
    rw [Option.some_inj] at hmv
    rw [← hmv]
    exact followChain_spacing _ bounds hw hh rest _

/-- Claim C2 counterexample: in a 10 × 10 arena (positive width and
height) the two consecutive segments of `snakeC2` end up at toroidal
distance 2 after `moveSnake` — squared distance 4, off by 60 from
`SEGMENT_SPACING² = 64`, far outside any small epsilon (the predicate
below already tolerates an error of 10 in the squared distance). -/
theorem moveSnake_spacing_counterexample :
    0 < boundsC2.width ∧ 0 < boundsC2.height ∧
    ∃ s', moveSnake snakeC2 0 0 boundsC2 = some s' ∧
      ¬ List.Chain' (fun p q =>
          |toroidalDistSq p q boundsC2 - SEGMENT_SPACING * SEGMENT_SPACING| ≤ 10)
        s'.segments := by
  have hcs : chainStep ⟨0, 0⟩ ⟨8, 0⟩ 0 boundsC2 = ⟨2, 0⟩ := by
    rw [chainStep_eval ⟨0, 0⟩ ⟨8, 0⟩ 0 boundsC2 1 0 (-2) 0 2
      (by norm_num [boundsC2, round_eq])
      (by norm_num [boundsC2, round_eq])
      (by norm_num [boundsC2])
      (by norm_num [boundsC2])
      (by rw [show ((-2 : ℝ) * (-2) + 0 * 0) = 2 ^ 2 by norm_num,
              Real.sqrt_sq (by norm_num : (0:ℝ) ≤ 2)])
      (by norm_num)]
    have hq : (⟨0 + (-2) / 2 * SEGMENT_SPACING, 0 + 0 / 2 * SEGMENT_SPACING⟩ : Point) =
        ⟨-8, 0⟩ := by
      norm_num [SEGMENT_SPACING, Point.mk.injEq]
    rw [hq]
    unfold wrapPoint
    rw [show boundsC2.width = (10 : ℝ) from rfl, show boundsC2.height = (10 : ℝ) from rfl,
      show ((⟨-8, 0⟩ : Point)).x = (-8 : ℝ) from rfl,
      show ((⟨-8, 0⟩ : Point)).y = (0 : ℝ) from rfl,
      wrapCoord_of_neg (-8) 10 (by norm_num) (by norm_num),
      wrapCoord_of_mem 0 10 (by norm_num) (by norm_num)]
    norm_num
  have hmv : moveSnake snakeC2 0 0 boundsC2 =
      some { snakeC2 with segments := [⟨0, 0⟩, ⟨2, 0⟩] } := by
    rw [moveSnake_dt_zero snakeC2 0 boundsC2 ⟨0, 0⟩ [⟨8, 0⟩] rfl
      (by have := Real.pi_pos; show -Real.pi ≤ snakeC2.angle; simp [snakeC2]; linarith)
      (by have := Real.pi_pos; show snakeC2.angle ≤ Real.pi; simp [snakeC2]; linarith)
      (by norm_num) (by norm_num [boundsC2]) (by norm_num) (by norm_num [boundsC2])]
    simp only [followChain, show snakeC2.angle = (0 : ℝ) from rfl, hcs]
  refine ⟨by norm_num [boundsC2], by norm_num [boundsC2],
    { snakeC2 with segments := [⟨0, 0⟩, ⟨2, 0⟩] }, hmv, ?_⟩
  intro hchain
  have hpair := List.chain'_cons.mp hchain
  have hdist : toroidalDistSq ⟨0, 0⟩ ⟨2, 0⟩ boundsC2 = 4 := by
    rw [toroidalDistSq_of_close _ _ _ (by norm_num [boundsC2]) (by norm_num [boundsC2])
      (by norm_num [boundsC2]) (by norm_num [boundsC2])]
    norm_num [planarDistSq]
  rw [hdist] at hpair
  have := hpair.1
  norm_num [SEGMENT_SPACING] at this

/-- Witness for claim C2 (amended) at a concrete input: a two-segment
snake in a 1000 × 1000 arena keeps its segments at spacing 8. -/
theorem moveSnake_consecutive_spacing_witness :
    2 * SEGMENT_SPACING ≤ bounds1000.width ∧ 2 * SEGMENT_SPACING ≤ bounds1000.height ∧
    ∃ s', moveSnake snakeW2 0 0 bounds1000 = some s' ∧
      List.Chain' (fun p q =>
        toroidalDistSq p q bounds1000 = SEGMENT_SPACING * SEGMENT_SPACING) s'.segments := by
  have hcs : chainStep ⟨500, 500⟩ ⟨508, 500⟩ 0 bounds1000 = ⟨508, 500⟩ := by
    rw [chainStep_eval ⟨500, 500⟩ ⟨508, 500⟩ 0 bounds1000 0 0 8 0 8
      (by norm_num [bounds1000, round_eq])
      (by norm_num [bounds1000, round_eq])
      (by norm_num [bounds1000])
      (by norm_num [bounds1000])
      (by rw [show ((8 : ℝ) * 8 + 0 * 0) = 8 ^ 2 by norm_num,
              Real.sqrt_sq (by norm_num : (0:ℝ) ≤ 8)])
      (by norm_num)]
    have hq : (⟨500 + 8 / 8 * SEGMENT_SPACING, 500 + 0 / 8 * SEGMENT_SPACING⟩ : Point) =
        ⟨508, 500⟩ := by
      norm_num [SEGMENT_SPACING, Point.mk.injEq]
    rw [hq]
    exact wrapPoint_of_mem _ _ (by norm_num) (by norm_num [bounds1000])
      (by norm_num) (by norm_num [bounds1000])
  have hmv : moveSnake snakeW2 0 0 bounds1000 =
      some { snakeW2 with segments := [⟨500, 500⟩, ⟨508, 500⟩] } := by
    rw [moveSnake_dt_zero snakeW2 0 bounds1000 ⟨500, 500⟩ [⟨508, 500⟩] rfl
      (by have := Real.pi_pos; show -Real.pi ≤ snakeW2.angle; simp [snakeW2]; linarith)
      (by have := Real.pi_pos; show snakeW2.angle ≤ Real.pi; simp [snakeW2]; linarith)
      (by norm_num) (by norm_num [bounds1000]) (by norm_num) (by norm_num [bounds1000])]
    simp only [followChain, show snakeW2.angle = (0 : ℝ) from rfl, hcs]
  exact ⟨by norm_num [SEGMENT_SPACING, bounds1000],
    by norm_num [SEGMENT_SPACING, bounds1000],
    { snakeW2 with segments := [⟨500, 500⟩, ⟨508, 500⟩] }, hmv,
    moveSnake_consecutive_spacing snakeW2 0 0 bounds1000 _
      (by norm_num [SEGMENT_SPACING, bounds1000])
      (by norm_num [SEGMENT_SPACING, bounds1000]) hmv⟩

/-! Lemmas for claim C10: the sequential collection phase equals the
spec-side description (earliest snake in roster order wins each
pellet). -/

theorem collectForSnake_spec (head : Point) (bounds : Bounds) (pellets : List Pellet) :
    collectForSnake head bounds pellets =
      (((pellets.filter (fun p => pelletInRangeB head bounds p)).map Pellet.value).sum,
       pellets.filter (fun p => !(pelletInRangeB head bounds p)),
       pellets.countP (fun p => pelletInRangeB head bounds p)) := by
  induction pellets with
  | nil => simp [collectForSnake]
  | cons p ps ih =>
    simp only [collectForSnake, ih, List.filter_cons, List.countP_cons]
    by_cases hp : pelletInRange head bounds p
    · have hp' := hp
      unfold pelletInRange at hp'
      rw [if_pos hp']
      have hb : pelletInRangeB head bounds p = true := by
        simp [pelletInRangeB, hp]
      simp [hb, add_comm]
    · have hp' := hp
      unfold pelletInRange at hp'
      rw [if_neg hp']
      have hb : pelletInRangeB head bounds p = false := by
        simp [pelletInRangeB, hp]
      simp [hb]

theorem countP_or_split {α : Type} (p q : α → Bool) (l : List α) :
    l.countP p + l.countP (fun a => q a && !(p a)) =
      l.countP (fun a => p a || q a) := by
  induction l with
  | nil => simp
  | cons a l ih =>
    simp only [List.countP_cons]
    cases hp : p a <;> cases hq : q a <;> simp [hp, hq] <;> omega

/-- Claim C10: within one collection phase each pellet of the input is
collected at most once.  The sequential phase of the source equals the
spec-side description `collectSpec`: the snake earliest in roster order
whose head is in range gains the pellet's value, the surviving pellet
list consists exactly of the pellets in range of no snake's head (each
collected pellet is removed exactly once), and later snakes cannot
collect a taken pellet.  The third component counts the removed
pellets. -/
theorem collectPhase_eq_spec (bounds : Bounds) (snakes : List Snake) :
    ∀ pellets : List Pellet,
      collectPhase bounds snakes pellets =
        (collectSpec bounds snakes pellets,
         pellets.filter
           (fun p => snakes.all (fun s => !(pelletInRangeB s.segments.headI bounds p))),
         pellets.countP
           (fun p => snakes.any (fun s => pelletInRangeB s.segments.headI bounds p))) := by
  induction snakes with
  | nil =>
    intro pellets
    simp [collectPhase, collectSpec]
  | cons s rest ih =>
    intro pellets
    simp only [collectPhase, collectForSnake_spec, collectSpec, ih, List.all_cons,
      List.any_cons]
    refine congrArg₂ Prod.mk rfl (congrArg₂ Prod.mk ?_ ?_)
    · rw [List.filter_filter]
      apply List.filter_congr
      intro p _
      cases hs : pelletInRangeB s.segments.headI bounds p <;> simp [hs]
    · rw [List.countP_filter]
      have hsplit := countP_or_split
        (fun p => pelletInRangeB s.segments.headI bounds p)
        (fun p => rest.any (fun t => pelletInRangeB t.segments.headI bounds p)) pellets
      rw [← hsplit]

/-! Structural lemmas about `tick` and its phases. -/

theorem tick_eq (state : GameState) (dt : ℝ) (ta : String → Option ℝ)
    (options : Option ℝ) (rx ry : ℝ) (moved : List Snake)
    (hmv : movePhase dt ta (options.getD 1) state.bounds state.snakes = some moved) :
    tick state dt ta options rx ry = some (tickRest state dt rx ry moved) := by
  simp [tick, hmv]

theorem tickRest_dead (state : GameState) (dt rx ry : ℝ) (snakes1 : List Snake) :
    (tickRest state dt rx ry snakes1).2.1 =
      computeDeadIds (collectPhase state.bounds snakes1 state.pellets).1 state.bounds
        (collectPhase state.bounds snakes1 state.pellets).1 [] := rfl

theorem tickRest_snakes (state : GameState) (dt rx ry : ℝ) (snakes1 : List Snake) :
    (tickRest state dt rx ry snakes1).1.snakes =
      (collectPhase state.bounds snakes1 state.pellets).1.filter
        (fun s => !((tickRest state dt rx ry snakes1).2.1.contains s.id)) := rfl

theorem tickRest_pellets (state : GameState) (dt rx ry : ℝ) (snakes1 : List Snake) :
    (tickRest state dt rx ry snakes1).1.pellets =
      if state.nextPelletSpawn - dt ≤ 0 then
        ((collectPhase state.bounds snakes1 state.pellets).2.1 ++
            deathPelletsLoop state.snakes (tickRest state dt rx ry snakes1).2.1) ++
          [⟨ARENA_PADDING + rx * (state.bounds.width - ARENA_PADDING - ARENA_PADDING),
            ARENA_PADDING + ry * (state.bounds.height - ARENA_PADDING - ARENA_PADDING),
            PELLET_VALUE⟩]
      else
        (collectPhase state.bounds snakes1 state.pellets).2.1 ++
          deathPelletsLoop state.snakes (tickRest state dt rx ry snakes1).2.1 := by
  simp only [tickRest]
  split_ifs <;> rfl

theorem tickRest_caller (state : GameState) (dt rx ry : ℝ) (snakes1 : List Snake) :
    (tickRest state dt rx ry snakes1).2.2 =
      if (collectPhase state.bounds snakes1 state.pellets).2.2 = 0 then
        (tickRest state dt rx ry snakes1).1.pellets
      else state.pellets := by
  simp only [tickRest]

theorem collectForSnake_length (head : Point) (bounds : Bounds)
    (pellets : List Pellet) :
    (collectForSnake head bounds pellets).2.1.length +
      (collectForSnake head bounds pellets).2.2 = pellets.length := by
  induction pellets with
  | nil => simp [collectForSnake]
  | cons p ps ih =>
    simp only [collectForSnake]
    split_ifs <;> simp <;> omega

theorem collectPhase_length (bounds : Bounds) (snakes : List Snake) :
    ∀ pellets : List Pellet,
      (collectPhase bounds snakes pellets).2.1.length +
        (collectPhase bounds snakes pellets).2.2 = pellets.length := by
  induction snakes with
  | nil => intro pellets; simp [collectPhase]
  | cons s rest ih =>
    intro pellets
    simp only [collectPhase]
    have h1 := collectForSnake_length s.segments.headI bounds pellets
    have h2 := ih (collectForSnake s.segments.headI bounds pellets).2.1
    omega

theorem deathPelletsFor_length (dead : Snake) :
    (deathPelletsFor dead).length =
      max 1 (⌊(dead.segments.length : ℝ) * DEATH_PELLET_FRACTION⌋.toNat) := by
  simp [deathPelletsFor]

theorem deathPelletsLoop_length (roster : List Snake) (ids : List String) :
    (deathPelletsLoop roster ids).length =
      (ids.map (fun id => deathCountFrom roster id)).sum := by
  induction ids with
  | nil => simp [deathPelletsLoop]
  | cons id rest ih =>
    simp only [deathPelletsLoop, List.map_cons, List.sum_cons, List.length_append, ih]
    cases hf : roster.find? (fun s => s.id == id) with
    | none => simp [deathCountFrom, hf]
    | some dead => simp [deathCountFrom, hf, deathPelletsFor_length]

/-! Membership lemmas for `computeDeadIds`. -/

theorem computeDeadIds_acc_mem (all : List Snake) (bounds : Bounds) :
    ∀ (rest : List Snake) (acc : List String) (x : String),
      x ∈ acc → x ∈ computeDeadIds all bounds rest acc := by
  intro rest
  induction rest with
  | nil => intro acc x hx; simpa [computeDeadIds] using hx
  | cons t rest' ih =>
    intro acc x hx
    simp only [computeDeadIds]
    apply ih
    split_ifs with h1 h2
    · exact hx
    · exact List.mem_append_left _ hx
    · exact hx

theorem computeDeadIds_mem_of_hits (all : List Snake) (bounds : Bounds) :
    ∀ (rest : List Snake) (acc : List String) (s : Snake),
      s ∈ rest → headHitsBody s.id s.segments.headI all bounds →
      s.id ∈ computeDeadIds all bounds rest acc := by
  intro rest
  induction rest with
  | nil => intro acc s hs; exact absurd hs (List.not_mem_nil s)
  | cons t rest' ih =>
    intro acc s hs hhit
    rcases List.mem_cons.mp hs with heq | hmem
    · subst heq
      simp only [computeDeadIds]
      rw [if_pos hhit]
      apply computeDeadIds_acc_mem
      split_ifs with h1
      · exact h1
      · exact List.mem_append_right _ (List.mem_singleton_self _)
    · simp only [computeDeadIds]
      exact ih _ s hmem hhit

theorem computeDeadIds_mem_inv (all : List Snake) (bounds : Bounds) :
    ∀ (rest : List Snake) (acc : List String) (x : String),
      x ∈ computeDeadIds all bounds rest acc →
      x ∈ acc ∨ ∃ t ∈ rest, t.id = x ∧ headHitsBody t.id t.segments.headI all bounds := by
  intro rest
  induction rest with
  | nil => intro acc x hx; exact Or.inl (by simpa [computeDeadIds] using hx)
  | cons t rest' ih =>
    intro acc x hx
    simp only [computeDeadIds] at hx
    rcases ih _ x hx with hacc | ⟨u, hu, hux, huh⟩
    · by_cases hhit : headHitsBody t.id t.segments.headI all bounds
      · rw [if_pos hhit] at hacc
        by_cases hin : t.id ∈ acc
        · rw [if_pos hin] at hacc
          exact Or.inl hacc
        · rw [if_neg hin] at hacc
          rcases List.mem_append.mp hacc with h | h
          · exact Or.inl h
          · right
            exact ⟨t, List.mem_cons_self t rest',
              (List.mem_singleton.mp h).symm, hhit⟩
      · rw [if_neg hhit] at hacc
        exact Or.inl hacc
    · exact Or.inr ⟨u, List.mem_cons_of_mem t hu, hux, huh⟩

/-! The collection phase preserves ids, heads, and bodies (as prefixes). -/

theorem applyGain_id (s : Snake) (g : ℝ) : (applyGain s g).id = s.id := by
  unfold applyGain
  split_ifs <;> rfl

theorem applyGain_headI (s : Snake) (g : ℝ) :
    (applyGain s g).segments.headI = s.segments.headI := by
  unfold applyGain
  split_ifs with h
  · rfl
  · cases hseg : s.segments with
    | nil =>
      simp only [hseg, List.nil_append]
      cases hn : ⌈g⌉.toNat with
      | zero => simp
      | succ k =>
        simp [List.replicate_succ, hseg]
    | cons a l => simp [hseg]

theorem applyGain_prefix (s : Snake) (g : ℝ) :
    s.segments <+: (applyGain s g).segments := by
  unfold applyGain
  split_ifs with h
  · exact List.prefix_refl _
  · exact List.prefix_append _ _

theorem collectPhase_forall₂ (bounds : Bounds) (snakes : List Snake) :
    ∀ pellets : List Pellet,
      List.Forall₂
        (fun s s2 => s2.id = s.id ∧ s2.segments.headI = s.segments.headI ∧
          s.segments <+: s2.segments)
        snakes (collectPhase bounds snakes pellets).1 := by
  induction snakes with
  | nil => intro pellets; simp [collectPhase]
  | cons s rest ih =>
    intro pellets
    simp only [collectPhase]
    exact List.Forall₂.cons
      ⟨applyGain_id _ _, applyGain_headI _ _, applyGain_prefix _ _⟩ (ih _)

theorem forall₂_exists_mem {α β : Type} {R : α → β → Prop} :
    ∀ {l1 : List α} {l2 : List β}, List.Forall₂ R l1 l2 → ∀ {a : α}, a ∈ l1 →
      ∃ b ∈ l2, R a b := by
  intro l1 l2 h
  induction h with
  | nil => intro a ha; exact absurd ha (List.not_mem_nil a)
  | cons hR _ ih =>
    intro a ha
    rcases List.mem_cons.mp ha with heq | hmem
    · subst heq
      exact ⟨_, List.mem_cons_self _ _, hR⟩
    · obtain ⟨b, hb, hRb⟩ := ih hmem
      exact ⟨b, List.mem_cons_of_mem _ hb, hRb⟩

/-! Lemmas for claim C6: a zero-segment snake aborts the move phase. -/

theorem moveSnake_none (s : Snake) (dt targetAngle : ℝ) (bounds : Bounds)
    (h : s.segments = []) : moveSnake s dt targetAngle bounds = none := by
  simp [moveSnake, h]

theorem movePhase_none_of_empty (dt : ℝ) (ta : String → Option ℝ) (psm : ℝ)
    (bounds : Bounds) :
    ∀ snakes : List Snake, (∃ s ∈ snakes, s.segments = []) →
      movePhase dt ta psm bounds snakes = none := by
  intro snakes
  induction snakes with
  | nil => rintro ⟨s, hs, _⟩; exact absurd hs (List.not_mem_nil s)
  | cons t rest ih =>
    rintro ⟨s, hs, hempty⟩
    rcases List.mem_cons.mp hs with heq | hmem
    · subst heq
      simp only [movePhase]
      have hmv := moveSnake_none
        (if (if s.isPlayer then psm else 1) ≠ 1
          then { s with speed := s.speed * (if s.isPlayer then psm else 1) } else s)
        dt ((ta s.id).getD s.angle) bounds (by split_ifs <;> exact hempty)
      rw [hmv]
      rfl
    · simp only [movePhase]
      rw [ih ⟨s, hmem, hempty⟩]
      simp

/-- Claim C6 (amended): the source performs no input validation at all.
A snake with zero segments makes the whole tick call fail (the
JavaScript code throws a `TypeError` reading `undefined.x`, embedded as
`none`): the malformed snake is not isolated and skipped, and the rest
of the tick does not complete. -/
theorem tick_zero_segment_snake_aborts (state : GameState) (dt : ℝ)
    (ta : String → Option ℝ) (options : Option ℝ) (rx ry : ℝ) (s : Snake)
    (hs : s ∈ state.snakes) (hseg : s.segments = []) :
    tick state dt ta options rx ry = none := by
  simp [tick,
    movePhase_none_of_empty dt ta (options.getD 1) state.bounds state.snakes ⟨s, hs, hseg⟩]

/-- Claim C6 counterexample: `stateC6` contains one zero-segment snake
and one healthy snake; `tick` neither rejects the state with an
explicit precondition check nor isolates the malformed snake — the
whole call fails, so the healthy snake's simulation does not advance. -/
theorem tick_malformed_input_counterexample :
    (emptySnake ∈ stateC6.snakes ∧ emptySnake.segments = [] ∧
      mkSimpleSnake "h" ⟨100, 100⟩ ∈ stateC6.snakes) ∧
    tick stateC6 1 (fun _ => none) none (1 / 2) (1 / 2) = none := by
  refine ⟨⟨by simp [stateC6], rfl, by simp [stateC6]⟩, ?_⟩
  have hnone : movePhase 1 (fun _ => none) 1
      stateC6.bounds stateC6.snakes = none :=
    movePhase_none_of_empty _ _ _ _ _ ⟨emptySnake, by simp [stateC6], rfl⟩
  simp [tick, hnone]

/-- Witness for claim C6 (amended) at the concrete malformed state. -/
theorem tick_zero_segment_snake_aborts_witness :
    (emptySnake ∈ stateC6.snakes ∧ emptySnake.segments = []) ∧
    tick stateC6 2 (fun _ => none) none (1 / 2) (1 / 2) = none :=
  ⟨⟨by simp [stateC6], rfl⟩,
   tick_zero_segment_snake_aborts stateC6 2 (fun _ => none) none (1 / 2) (1 / 2)
     emptySnake (by simp [stateC6]) rfl⟩

/-! Evaluation helpers for `movePhase` at concrete inputs. -/

theorem movePhase_nil (dt : ℝ) (ta : String → Option ℝ) (psm : ℝ) (bounds : Bounds) :
    movePhase dt ta psm bounds [] = some [] := rfl

theorem movePhase_cons_eval (dt : ℝ) (ta : String → Option ℝ) (psm : ℝ)
    (bounds : Bounds) (s : Snake) (rest : List Snake) (ms : Snake) (mrest : List Snake)
    (hps : s.isPlayer = false)
    (hmv : moveSnake s dt ((ta s.id).getD s.angle) bounds = some ms)
    (hrest : movePhase dt ta psm bounds rest = some mrest) :
    movePhase dt ta psm bounds (s :: rest) = some (ms :: mrest) := by
  simp only [movePhase]
  have h1 : (if s.isPlayer then psm else 1) = (1 : ℝ) := by simp [hps]
  rw [h1]
  rw [if_neg (by norm_num : ¬ ((1 : ℝ) ≠ 1)), hmv, hrest]
  simp

theorem moveSnake_single_dt_zero (s : Snake) (target : ℝ) (bounds : Bounds) (p : Point)
    (hseg : s.segments = [p]) (h1 : -Real.pi ≤ s.angle) (h2 : s.angle ≤ Real.pi)
    (hx0 : 0 ≤ p.x) (hx1 : p.x < bounds.width)
    (hy0 : 0 ≤ p.y) (hy1 : p.y < bounds.height) :
    moveSnake s 0 target bounds = some s := by
  rw [moveSnake_dt_zero s target bounds p [] hseg h1 h2 hx0 hx1 hy0 hy1]
  simp only [followChain]
  rw [← hseg]

/-- Claim C1: if after the move phase of a tick two snakes' heads each
lie within the collision radius (`HEAD_RADIUS + BODY_RADIUS`, toroidal)
of a segment of the other snake's body, then both ids appear in the
returned `deadIds` and neither snake survives into the returned state.
The collision pass tests every snake independently against the full
post-move roster, so neither death depends on processing order. -/
theorem tick_simultaneous_deaths (state : GameState) (dt : ℝ)
    (ta : String → Option ℝ) (options : Option ℝ) (rx ry : ℝ)
    (moved : List Snake) (sa sb : Snake)
    (hmv : movePhase dt ta (options.getD 1) state.bounds state.snakes = some moved)
    (hsa : sa ∈ moved) (hsb : sb ∈ moved) (hne : sa.id ≠ sb.id)
    (hab : ∃ seg ∈ sb.segments, toroidalDistSq sa.segments.headI seg state.bounds <
      (HEAD_RADIUS + BODY_RADIUS) * (HEAD_RADIUS + BODY_RADIUS))
    (hba : ∃ seg ∈ sa.segments, toroidalDistSq sb.segments.headI seg state.bounds <
      (HEAD_RADIUS + BODY_RADIUS) * (HEAD_RADIUS + BODY_RADIUS)) :
    ∃ st' dead inp, tick state dt ta options rx ry = some (st', dead, inp) ∧
      sa.id ∈ dead ∧ sb.id ∈ dead ∧
      ∀ t ∈ st'.snakes, t.id ≠ sa.id ∧ t.id ≠ sb.id := by
  have htick := tick_eq state dt ta options rx ry moved hmv
  refine ⟨(tickRest state dt rx ry moved).1, (tickRest state dt rx ry moved).2.1,
    (tickRest state dt rx ry moved).2.2, by rw [htick], ?_⟩
  have hf := collectPhase_forall₂ state.bounds moved state.pellets
  obtain ⟨sa2, hsa2mem, hsa2id, hsa2head, hsa2pre⟩ := forall₂_exists_mem hf hsa
  obtain ⟨sb2, hsb2mem, hsb2id, hsb2head, hsb2pre⟩ := forall₂_exists_mem hf hsb
  have hhita : headHitsBody sa2.id sa2.segments.headI
      (collectPhase state.bounds moved state.pellets).1 state.bounds := by
    obtain ⟨seg, hsegmem, hdist⟩ := hab
    exact ⟨sb2, hsb2mem, by rw [hsb2id, hsa2id]; exact fun h => hne h.symm,
      seg, hsb2pre.subset hsegmem, by rw [hsa2head]; exact hdist⟩
  have hhitb : headHitsBody sb2.id sb2.segments.headI
      (collectPhase state.bounds moved state.pellets).1 state.bounds := by
    obtain ⟨seg, hsegmem, hdist⟩ := hba
    exact ⟨sa2, hsa2mem, by rw [hsa2id, hsb2id]; exact fun h => hne.symm h.symm,
      seg, hsa2pre.subset hsegmem, by rw [hsb2head]; exact hdist⟩
  have hadead : sa.id ∈ (tickRest state dt rx ry moved).2.1 := by
    rw [tickRest_dead, ← hsa2id]
    exact computeDeadIds_mem_of_hits _ _ _ _ sa2 hsa2mem hhita
  have hbdead : sb.id ∈ (tickRest state dt rx ry moved).2.1 := by
    rw [tickRest_dead, ← hsb2id]
    exact computeDeadIds_mem_of_hits _ _ _ _ sb2 hsb2mem hhitb
  refine ⟨hadead, hbdead, ?_⟩
  intro t ht
  rw [tickRest_snakes] at ht
  rw [List.mem_filter] at ht
  have hnotin : t.id ∉ (tickRest state dt rx ry moved).2.1 := by
    simpa using ht.2
  exact ⟨fun h => hnotin (h ▸ hadead), fun h => hnotin (h ▸ hbdead)⟩

/-- Witness for claim C1: two one-segment snakes 10 apart (collision
radius 30) both die in the same tick. -/
theorem tick_simultaneous_deaths_witness :
    ∃ moved, movePhase 0 (fun _ => none) ((none : Option ℝ).getD 1)
        stateC1.bounds stateC1.snakes = some moved ∧
      mkSimpleSnake "a" ⟨500, 500⟩ ∈ moved ∧ mkSimpleSnake "b" ⟨510, 500⟩ ∈ moved ∧
      ∃ st' dead inp, tick stateC1 0 (fun _ => none) none (1 / 2) (1 / 2) =
          some (st', dead, inp) ∧
        (mkSimpleSnake "a" ⟨500, 500⟩).id ∈ dead ∧
        (mkSimpleSnake "b" ⟨510, 500⟩).id ∈ dead ∧
        ∀ t ∈ st'.snakes, t.id ≠ (mkSimpleSnake "a" ⟨500, 500⟩).id ∧
          t.id ≠ (mkSimpleSnake "b" ⟨510, 500⟩).id := by
  have hpi := Real.pi_pos
  have hma : moveSnake (mkSimpleSnake "a" ⟨500, 500⟩) 0
      (((fun _ => none : String → Option ℝ) (mkSimpleSnake "a" ⟨500, 500⟩).id).getD
        (mkSimpleSnake "a" ⟨500, 500⟩).angle) stateC1.bounds =
      some (mkSimpleSnake "a" ⟨500, 500⟩) :=
    moveSnake_single_dt_zero _ _ _ ⟨500, 500⟩ rfl
      (by show -Real.pi ≤ (0:ℝ); linarith) (by show (0:ℝ) ≤ Real.pi; linarith)
      (by norm_num) (by show (500:ℝ) < bounds1000.width; norm_num [bounds1000])
      (by norm_num) (by show (500:ℝ) < bounds1000.height; norm_num [bounds1000])
  have hmb : moveSnake (mkSimpleSnake "b" ⟨510, 500⟩) 0
      (((fun _ => none : String → Option ℝ) (mkSimpleSnake "b" ⟨510, 500⟩).id).getD
        (mkSimpleSnake "b" ⟨510, 500⟩).angle) stateC1.bounds =
      some (mkSimpleSnake "b" ⟨510, 500⟩) :=
    moveSnake_single_dt_zero _ _ _ ⟨510, 500⟩ rfl
      (by show -Real.pi ≤ (0:ℝ); linarith) (by show (0:ℝ) ≤ Real.pi; linarith)
      (by norm_num) (by show (510:ℝ) < bounds1000.width; norm_num [bounds1000])
      (by norm_num) (by show (500:ℝ) < bounds1000.height; norm_num [bounds1000])
  have hmv : movePhase 0 (fun _ => none) ((none : Option ℝ).getD 1)
      stateC1.bounds stateC1.snakes =
      some [mkSimpleSnake "a" ⟨500, 500⟩, mkSimpleSnake "b" ⟨510, 500⟩] := by
    show movePhase 0 (fun _ => none) 1 stateC1.bounds
      (mkSimpleSnake "a" ⟨500, 500⟩ :: [mkSimpleSnake "b" ⟨510, 500⟩]) = _
    rw [movePhase_cons_eval _ _ _ _ _ _ _ _ rfl hma
      (movePhase_cons_eval _ _ _ _ _ _ _ _ rfl hmb (movePhase_nil _ _ _ _))]
  have hdista : toroidalDistSq ⟨500, 500⟩ ⟨510, 500⟩ stateC1.bounds <
      (HEAD_RADIUS + BODY_RADIUS) * (HEAD_RADIUS + BODY_RADIUS) := by
    rw [show stateC1.bounds = bounds1000 from rfl,
      toroidalDistSq_of_close _ _ _ (by norm_num [bounds1000]) (by norm_num [bounds1000])
        (by norm_num [bounds1000]) (by norm_num [bounds1000])]
    norm_num [planarDistSq, HEAD_RADIUS, BODY_RADIUS]
  have hdistb : toroidalDistSq ⟨510, 500⟩ ⟨500, 500⟩ stateC1.bounds <
      (HEAD_RADIUS + BODY_RADIUS) * (HEAD_RADIUS + BODY_RADIUS) := by
    rw [show stateC1.bounds = bounds1000 from rfl,
      toroidalDistSq_of_close _ _ _ (by norm_num [bounds1000]) (by norm_num [bounds1000])
        (by norm_num [bounds1000]) (by norm_num [bounds1000])]
    norm_num [planarDistSq, HEAD_RADIUS, BODY_RADIUS]
  obtain ⟨st', dead, inp, htick, hda, hdb, hsurv⟩ :=
    tick_simultaneous_deaths stateC1 0 (fun _ => none) none (1 / 2) (1 / 2)
      [mkSimpleSnake "a" ⟨500, 500⟩, mkSimpleSnake "b" ⟨510, 500⟩]
      (mkSimpleSnake "a" ⟨500, 500⟩) (mkSimpleSnake "b" ⟨510, 500⟩)
      hmv (by simp) (by simp) (by simp [mkSimpleSnake])
      ⟨⟨510, 500⟩, by simp [mkSimpleSnake], hdista⟩
      ⟨⟨500, 500⟩, by simp [mkSimpleSnake], hdistb⟩
  exact ⟨_, hmv, by simp, by simp, st', dead, inp, htick, hda, hdb, hsurv⟩

/-- Claim C9: a snake is never killed by its own body.  If, at
collision-check time (after movement and growth), no segment of any
*other* snake is within the collision radius of a snake's head — its
head may overlap its own segments arbitrarily — then the snake's id is
not in `deadIds` and the snake remains in the returned live set.  The
hypothesis `huniq` rules out a second, distinct snake carrying the same
id (ids are unique in every reachable state). -/
theorem tick_no_self_collision_death (state : GameState) (dt : ℝ)
    (ta : String → Option ℝ) (options : Option ℝ) (rx ry : ℝ)
    (moved : List Snake) (s : Snake)
    (hmv : movePhase dt ta (options.getD 1) state.bounds state.snakes = some moved)
    (hs : s ∈ (collectPhase state.bounds moved state.pellets).1)
    (huniq : ∀ t ∈ (collectPhase state.bounds moved state.pellets).1,
      t.id = s.id → t = s)
    (hsafe : ¬ headHitsBody s.id s.segments.headI
      (collectPhase state.bounds moved state.pellets).1 state.bounds) :
    ∃ st' dead inp, tick state dt ta options rx ry = some (st', dead, inp) ∧
      s.id ∉ dead ∧ ∃ t ∈ st'.snakes, t.id = s.id := by
  have htick := tick_eq state dt ta options rx ry moved hmv
  refine ⟨(tickRest state dt rx ry moved).1, (tickRest state dt rx ry moved).2.1,
    (tickRest state dt rx ry moved).2.2, by rw [htick], ?_, ?_⟩
  · intro habs
    rw [tickRest_dead] at habs
    rcases computeDeadIds_mem_inv _ _ _ _ _ habs with h | ⟨t, ht, htid, hthit⟩
    · exact absurd h (List.not_mem_nil _)
    · have := huniq t ht htid
      subst this
      rw [htid] at hthit
      exact hsafe hthit
  · refine ⟨s, ?_, rfl⟩
    rw [tickRest_snakes]
    rw [List.mem_filter]
    refine ⟨hs, ?_⟩
    have hnot : s.id ∉ (tickRest state dt rx ry moved).2.1 := by
      intro habs
      rw [tickRest_dead] at habs
      rcases computeDeadIds_mem_inv _ _ _ _ _ habs with h | ⟨t, ht, htid, hthit⟩
      · exact absurd h (List.not_mem_nil _)
      · have := huniq t ht htid
        subst this
        rw [htid] at hthit
        exact hsafe hthit
    simpa using hnot

/-- Witness for claim C9: two one-segment snakes 400√2 apart; neither is
near the other, so neither dies. -/
theorem tick_no_self_collision_death_witness :
    ∃ moved, movePhase 0 (fun _ => none) ((none : Option ℝ).getD 1)
        stateC9.bounds stateC9.snakes = some moved ∧
      ∃ st' dead inp, tick stateC9 0 (fun _ => none) none (1 / 2) (1 / 2) =
          some (st', dead, inp) ∧
        (mkSimpleSnake "a" ⟨100, 100⟩).id ∉ dead ∧
        ∃ t ∈ st'.snakes, t.id = (mkSimpleSnake "a" ⟨100, 100⟩).id := by
  have hpi := Real.pi_pos
  have hma : moveSnake (mkSimpleSnake "a" ⟨100, 100⟩) 0
      (((fun _ => none : String → Option ℝ) (mkSimpleSnake "a" ⟨100, 100⟩).id).getD
        (mkSimpleSnake "a" ⟨100, 100⟩).angle) stateC9.bounds =
      some (mkSimpleSnake "a" ⟨100, 100⟩) :=
    moveSnake_single_dt_zero _ _ _ ⟨100, 100⟩ rfl
      (by show -Real.pi ≤ (0:ℝ); linarith) (by show (0:ℝ) ≤ Real.pi; linarith)
      (by norm_num) (by show (100:ℝ) < bounds1000.width; norm_num [bounds1000])
      (by norm_num) (by show (100:ℝ) < bounds1000.height; norm_num [bounds1000])
  have hmb : moveSnake (mkSimpleSnake "b" ⟨500, 500⟩) 0
      (((fun _ => none : String → Option ℝ) (mkSimpleSnake "b" ⟨500, 500⟩).id).getD
        (mkSimpleSnake "b" ⟨500, 500⟩).angle) stateC9.bounds =
      some (mkSimpleSnake "b" ⟨500, 500⟩) :=
    moveSnake_single_dt_zero _ _ _ ⟨500, 500⟩ rfl
      (by show -Real.pi ≤ (0:ℝ); linarith) (by show (0:ℝ) ≤ Real.pi; linarith)
      (by norm_num) (by show (500:ℝ) < bounds1000.width; norm_num [bounds1000])
      (by norm_num) (by show (500:ℝ) < bounds1000.height; norm_num [bounds1000])
  have hmv : movePhase 0 (fun _ => none) ((none : Option ℝ).getD 1)
      stateC9.bounds stateC9.snakes =
      some [mkSimpleSnake "a" ⟨100, 100⟩, mkSimpleSnake "b" ⟨500, 500⟩] := by
    show movePhase 0 (fun _ => none) 1 stateC9.bounds
      (mkSimpleSnake "a" ⟨100, 100⟩ :: [mkSimpleSnake "b" ⟨500, 500⟩]) = _
    rw [movePhase_cons_eval _ _ _ _ _ _ _ _ rfl hma
      (movePhase_cons_eval _ _ _ _ _ _ _ _ rfl hmb (movePhase_nil _ _ _ _))]
  have hcoll : collectPhase stateC9.bounds
      [mkSimpleSnake "a" ⟨100, 100⟩, mkSimpleSnake "b" ⟨500, 500⟩] stateC9.pellets =
      ([mkSimpleSnake "a" ⟨100, 100⟩, mkSimpleSnake "b" ⟨500, 500⟩], [], 0) := by
    show collectPhase bounds1000 _ [] = _
    simp [collectPhase, collectForSnake, applyGain]
  obtain ⟨st', dead, inp, htick, hnd, ht⟩ :=
    tick_no_self_collision_death stateC9 0 (fun _ => none) none (1 / 2) (1 / 2)
      [mkSimpleSnake "a" ⟨100, 100⟩, mkSimpleSnake "b" ⟨500, 500⟩]
      (mkSimpleSnake "a" ⟨100, 100⟩) hmv
      (by rw [hcoll]; simp)
      (by
        rw [hcoll]
        intro t ht htid
        rcases List.mem_cons.mp ht with h | h
        · exact h
        · rcases List.mem_cons.mp h with h2 | h2
          · exfalso
            rw [h2] at htid
            simp [mkSimpleSnake] at htid
          · exact absurd h2 (List.not_mem_nil t))
      (by
        rw [hcoll]
        rintro ⟨u, hu, huid, seg, hseg, hdist⟩
        rcases List.mem_cons.mp hu with h | h
        · rw [h] at huid
          exact huid rfl
        · rcases List.mem_cons.mp h with h2 | h2
          · rw [h2] at hseg
            simp only [mkSimpleSnake, List.mem_singleton] at hseg
            rw [hseg] at hdist
            rw [show (mkSimpleSnake "a" ⟨100, 100⟩).segments.headI = (⟨100, 100⟩ : Point)
                from rfl,
              show stateC9.bounds = bounds1000 from rfl,
              toroidalDistSq_of_close _ _ _ (by norm_num [bounds1000])
                (by norm_num [bounds1000]) (by norm_num [bounds1000])
                (by norm_num [bounds1000])] at hdist
            norm_num [planarDistSq, HEAD_RADIUS, BODY_RADIUS] at hdist
          · exact absurd h2 (List.not_mem_nil u))
  exact ⟨_, hmv, st', dead, inp, htick, hnd, ht⟩

/-- Claim C3 (amended): the pellet count after a tick equals the count
before, minus the number of pellets collected this tick, plus one if
the spawn timer fired, plus `max 1 ⌊n · DEATH_PELLET_FRACTION⌋` for
each dead snake — where `n` is the dead snake's segment count in the
*input* state (`state.snakes`), i.e. before this tick's movement and
growth; the counterexample below shows the pre-removal (post-growth)
count predicted by the claim is wrong when a snake grows and dies in
the same tick. -/
theorem tick_pellet_conservation (state : GameState) (dt : ℝ)
    (ta : String → Option ℝ) (options : Option ℝ) (rx ry : ℝ)
    (moved : List Snake)
    (hmv : movePhase dt ta (options.getD 1) state.bounds state.snakes = some moved) :
    ∃ st' dead inp, tick state dt ta options rx ry = some (st', dead, inp) ∧
      (st'.pellets.length : ℤ) =
        (state.pellets.length : ℤ) -
          ((collectPhase state.bounds moved state.pellets).2.2 : ℤ) +
          (if state.nextPelletSpawn - dt ≤ 0 then 1 else 0) +
          (((dead.map (fun id => deathCountFrom state.snakes id)).sum : ℕ) : ℤ) := by
  have htick := tick_eq state dt ta options rx ry moved hmv
  refine ⟨(tickRest state dt rx ry moved).1, (tickRest state dt rx ry moved).2.1,
    (tickRest state dt rx ry moved).2.2, by rw [htick], ?_⟩
  have hlen := collectPhase_length state.bounds moved state.pellets
  have hloop := deathPelletsLoop_length state.snakes ((tickRest state dt rx ry moved).2.1)
  rw [tickRest_pellets]
  split_ifs with h
  · simp only [List.length_append, List.length_cons, List.length_nil, hloop]
    push_cast
    omega
  · simp only [List.length_append, hloop]
    push_cast
    omega

/-- Witness for claim C3 (amended): a state with no snakes whose spawn
timer fires; the pellet count goes from 0 to 1. -/
theorem tick_pellet_conservation_witness :
    ∃ st' dead inp, tick stateC3w 3 (fun _ => none) none (1 / 2) (1 / 2) =
        some (st', dead, inp) ∧
      (st'.pellets.length : ℤ) =
        (stateC3w.pellets.length : ℤ) -
          ((collectPhase stateC3w.bounds [] stateC3w.pellets).2.2 : ℤ) +
          (if stateC3w.nextPelletSpawn - 3 ≤ 0 then 1 else 0) +
          (((dead.map (fun id => deathCountFrom stateC3w.snakes id)).sum : ℕ) : ℤ) :=
  tick_pellet_conservation stateC3w 3 (fun _ => none) none (1 / 2) (1 / 2) [] rfl

/-- Evaluation helper: one aligned follow-the-leader step of length 8 in
the 1000 × 1000 arena leaves the segment in place. -/
theorem chainStep_aligned8 (x y x2 angle : ℝ) (h2 : x2 - x = 8)
    (hx0 : 0 ≤ x) (hx1 : x2 < 1000) (hy0 : 0 ≤ y) (hy1 : y < 1000) :
    chainStep ⟨x, y⟩ ⟨x2, y⟩ angle bounds1000 = ⟨x2, y⟩ := by
  rw [chainStep_eval ⟨x, y⟩ ⟨x2, y⟩ angle bounds1000 0 0 8 0 8
    (by show round ((x2 - x) / bounds1000.width) = 0
        rw [h2]
        norm_num [bounds1000, round_eq])
    (by show round ((y - y) / bounds1000.height) = 0
        norm_num [round_eq])
    (by show x2 - x - bounds1000.width * ((0 : ℤ) : ℝ) = 8
        simp only [Int.cast_zero, mul_zero, sub_zero]
        exact h2)
    (by show y - y - bounds1000.height * ((0 : ℤ) : ℝ) = 0
        simp only [Int.cast_zero, mul_zero, sub_zero, sub_self])
    (by rw [show (8 : ℝ) * 8 + 0 * 0 = 8 ^ 2 by norm_num,
        Real.sqrt_sq (by norm_num : (0:ℝ) ≤ 8)])
    (by norm_num)]
  have e1 : x + 8 / 8 * SEGMENT_SPACING = x2 := by
    norm_num [SEGMENT_SPACING]
    linarith
  have e2 : y + 0 / 8 * SEGMENT_SPACING = y := by
    norm_num
  rw [e1, e2]
  exact wrapPoint_of_mem _ _ (by show (0:ℝ) ≤ x2; linarith)
    (by show x2 < bounds1000.width; norm_num [bounds1000]; linarith)
    (by show (0:ℝ) ≤ y; linarith)
    (by show y < bounds1000.height; norm_num [bounds1000]; linarith)

/-- Claim C3 counterexample: in `stateC3`, snake `a` (3 input segments)
collects a value-5 pellet and dies in the same tick against snake `b`
(which also dies).  The code emits `max 1 ⌊3·0.4⌋ = 1` death pellet for
`a`, computed from the *input* roster, and 1 for `b`, so the new state
has 2 pellets.  The claim's "segmentCount" of the dead snake at removal
time — 8 for `a` after growth — predicts `max 1 ⌊8·0.4⌋ = 3` for `a`,
total 4, making the claimed balance `1 − 1 + 0 + 4 = 4 ≠ 2`. -/
theorem tick_death_pellet_count_counterexample :
    ∃ st' dead inp,
      tick stateC3 0 (fun _ => none) none (1 / 2) (1 / 2) = some (st', dead, inp) ∧
      (collectPhase stateC3.bounds [snakeA3, snakeB3] stateC3.pellets).2.2 = 1 ∧
      ¬ (stateC3.nextPelletSpawn - 0 ≤ 0) ∧
      (dead.map (fun id =>
        deathCountFrom (collectPhase stateC3.bounds [snakeA3, snakeB3] stateC3.pellets).1
          id)).sum = 4 ∧
      st'.pellets.length = 2 ∧
      (st'.pellets.length : ℤ) ≠ (stateC3.pellets.length : ℤ) - 1 + 0 + 4 := by
  have hpi := Real.pi_pos
  have hmvA : moveSnake snakeA3 0
      (((fun _ => none : String → Option ℝ) snakeA3.id).getD snakeA3.angle)
      stateC3.bounds = some snakeA3 := by
    rw [moveSnake_dt_zero snakeA3 _ stateC3.bounds ⟨500, 500⟩ [⟨508, 500⟩, ⟨516, 500⟩] rfl
      (by show -Real.pi ≤ (0:ℝ); linarith) (by show (0:ℝ) ≤ Real.pi; linarith)
      (by norm_num) (by show (500:ℝ) < bounds1000.width; norm_num [bounds1000])
      (by norm_num) (by show (500:ℝ) < bounds1000.height; norm_num [bounds1000])]
    show some _ = some snakeA3
    rw [Option.some_inj]
    show { snakeA3 with
      segments := ⟨500, 500⟩ ::
        followChain ⟨500, 500⟩ [⟨508, 500⟩, ⟨516, 500⟩] snakeA3.angle bounds1000 } = snakeA3
    simp only [followChain, show snakeA3.angle = (0 : ℝ) from rfl]
    rw [chainStep_aligned8 500 500 508 0 (by norm_num) (by norm_num) (by norm_num)
      (by norm_num) (by norm_num)]
    rw [chainStep_aligned8 508 500 516 0 (by norm_num) (by norm_num) (by norm_num)
      (by norm_num) (by norm_num)]
    rfl
  have hmvB : moveSnake snakeB3 0
      (((fun _ => none : String → Option ℝ) snakeB3.id).getD snakeB3.angle)
      stateC3.bounds = some snakeB3 :=
    moveSnake_single_dt_zero _ _ _ ⟨510, 500⟩ rfl
      (by show -Real.pi ≤ (0:ℝ); linarith) (by show (0:ℝ) ≤ Real.pi; linarith)
      (by norm_num) (by show (510:ℝ) < bounds1000.width; norm_num [bounds1000])
      (by norm_num) (by show (500:ℝ) < bounds1000.height; norm_num [bounds1000])
  have hmv : movePhase 0 (fun _ => none) ((none : Option ℝ).getD 1)
      stateC3.bounds stateC3.snakes = some [snakeA3, snakeB3] := by
    show movePhase 0 (fun _ => none) 1 stateC3.bounds (snakeA3 :: [snakeB3]) = _
    rw [movePhase_cons_eval _ _ _ _ _ _ _ _ rfl hmvA
      (movePhase_cons_eval _ _ _ _ _ _ _ _ rfl hmvB (movePhase_nil _ _ _ _))]
  have hpellet_in : toroidalDistSq (⟨500, 500⟩ : Point) ⟨500, 500⟩ stateC3.bounds <
      (HEAD_RADIUS + PELLET_RADIUS + MAGNET_RADIUS) *
        (HEAD_RADIUS + PELLET_RADIUS + MAGNET_RADIUS) := by
    rw [show stateC3.bounds = bounds1000 from rfl,
      toroidalDistSq_of_close _ _ _ (by norm_num [bounds1000]) (by norm_num [bounds1000])
        (by norm_num [bounds1000]) (by norm_num [bounds1000])]
    norm_num [planarDistSq, HEAD_RADIUS, PELLET_RADIUS, MAGNET_RADIUS]
  have hcfA : collectForSnake ⟨500, 500⟩ stateC3.bounds stateC3.pellets = (5, [], 1) := by
    show collectForSnake ⟨500, 500⟩ stateC3.bounds [⟨500, 500, 5⟩] = _
    simp only [collectForSnake]
    rw [if_pos hpellet_in]
    norm_num
  have hgain : applyGain snakeA3 5 = snakeA3g := by
    unfold applyGain
    rw [if_neg (by norm_num : ¬ ((5:ℝ) ≤ 0))]
    show { snakeA3 with
      segments := snakeA3.segments ++
        List.replicate (⌈(5:ℝ)⌉.toNat) (snakeA3.segments.getLast?.getD default) } = _
    rw [show (⌈(5:ℝ)⌉.toNat) = 5 by rw [show (⌈(5:ℝ)⌉) = 5 by norm_num]; decide,
      show snakeA3.segments.getLast?.getD default = (⟨516, 500⟩ : Point) from rfl]
    rfl
  have hcoll : collectPhase stateC3.bounds [snakeA3, snakeB3] stateC3.pellets =
      ([snakeA3g, snakeB3], [], 1) := by
    simp only [collectPhase]
    rw [show snakeA3.segments.headI = (⟨500, 500⟩ : Point) from rfl, hcfA]
    show (applyGain snakeA3 5 :: _, _, _) = _
    rw [hgain]
    show (_, _) = _
    simp only [collectPhase]
    rw [show snakeB3.segments.headI = (⟨510, 500⟩ : Point) from rfl]
    show ((snakeA3g :: applyGain snakeB3 0 :: [], [], 1 + (0 + 0))) = _
    rw [show applyGain snakeB3 0 = snakeB3 from if_pos le_rfl]
  have hhitA : headHitsBody snakeA3g.id snakeA3g.segments.headI [snakeA3g, snakeB3]
      stateC3.bounds := by
    refine ⟨snakeB3, by simp, by show snakeB3.id ≠ snakeA3g.id; simp [snakeB3, snakeA3g, snakeA3],
      ⟨510, 500⟩, by show _ ∈ snakeB3.segments; simp [snakeB3], ?_⟩
    show toroidalDistSq snakeA3g.segments.headI ⟨510, 500⟩ stateC3.bounds < _
    rw [show snakeA3g.segments.headI = (⟨500, 500⟩ : Point) from rfl,
      show stateC3.bounds = bounds1000 from rfl,
      toroidalDistSq_of_close _ _ _ (by norm_num [bounds1000]) (by norm_num [bounds1000])
        (by norm_num [bounds1000]) (by norm_num [bounds1000])]
    norm_num [planarDistSq, HEAD_RADIUS, BODY_RADIUS]
  have hhitB : headHitsBody snakeB3.id snakeB3.segments.headI [snakeA3g, snakeB3]
      stateC3.bounds := by
    refine ⟨snakeA3g, by simp, by show snakeA3g.id ≠ snakeB3.id; simp [snakeB3, snakeA3g, snakeA3],
      ⟨508, 500⟩, by show _ ∈ snakeA3g.segments; simp [snakeA3g, snakeA3], ?_⟩
    show toroidalDistSq snakeB3.segments.headI ⟨508, 500⟩ stateC3.bounds < _
    rw [show snakeB3.segments.headI = (⟨510, 500⟩ : Point) from rfl,
      show stateC3.bounds = bounds1000 from rfl,
      toroidalDistSq_of_close _ _ _ (by norm_num [bounds1000]) (by norm_num [bounds1000])
        (by norm_num [bounds1000]) (by norm_num [bounds1000])]
    norm_num [planarDistSq, HEAD_RADIUS, BODY_RADIUS]
  have hdead : computeDeadIds [snakeA3g, snakeB3] stateC3.bounds [snakeA3g, snakeB3] [] =
      ["a", "b"] := by
    simp only [computeDeadIds]
    rw [if_pos hhitA, if_neg (List.not_mem_nil snakeA3g.id), if_pos hhitB]
    rw [if_neg (by show ¬ snakeB3.id ∈ [] ++ [snakeA3g.id]; simp [snakeB3, snakeA3g, snakeA3])]
    rfl
  have hfindA : stateC3.snakes.find? (fun s => s.id == "a") = some snakeA3 := by
    show List.find? _ [snakeA3, snakeB3] = _
    rw [List.find?_cons_of_pos]
    show (snakeA3.id == "a") = true
    decide
  have hfindB : stateC3.snakes.find? (fun s => s.id == "b") = some snakeB3 := by
    show List.find? _ [snakeA3, snakeB3] = _
    rw [List.find?_cons_of_neg, List.find?_cons_of_pos]
    · show (snakeB3.id == "b") = true
      decide
    · show ¬ (snakeA3.id == "b") = true
      decide
  have hdpfA : deathPelletsFor snakeA3 = [⟨500, 500, PELLET_VALUE⟩] := by
    simp only [deathPelletsFor]
    rw [show snakeA3.segments.length = 3 from rfl,
      show ((⌊((3:ℕ) : ℝ) * DEATH_PELLET_FRACTION⌋).toNat) = 1 by
        rw [show (⌊((3:ℕ) : ℝ) * DEATH_PELLET_FRACTION⌋) = 1 by
          norm_num [DEATH_PELLET_FRACTION]]
        decide]
    rfl
  have hdpfB : deathPelletsFor snakeB3 = [⟨510, 500, PELLET_VALUE⟩] := by
    simp only [deathPelletsFor]
    rw [show snakeB3.segments.length = 1 from rfl,
      show ((⌊((1:ℕ) : ℝ) * DEATH_PELLET_FRACTION⌋).toNat) = 0 by
        rw [show (⌊((1:ℕ) : ℝ) * DEATH_PELLET_FRACTION⌋) = 0 by
          norm_num [DEATH_PELLET_FRACTION]]
        decide]
    rfl
  have hloop : deathPelletsLoop stateC3.snakes ["a", "b"] =
      [⟨500, 500, PELLET_VALUE⟩, ⟨510, 500, PELLET_VALUE⟩] := by
    simp only [deathPelletsLoop, hfindA, hfindB, hdpfA, hdpfB]
    rfl
  have htick := tick_eq stateC3 0 (fun _ => none) none (1 / 2) (1 / 2)
    [snakeA3, snakeB3] hmv
  have hdead2 : (tickRest stateC3 0 (1 / 2) (1 / 2) [snakeA3, snakeB3]).2.1 =
      ["a", "b"] := by
    rw [tickRest_dead, hcoll]
    exact hdead
  have hpel : (tickRest stateC3 0 (1 / 2) (1 / 2) [snakeA3, snakeB3]).1.pellets =
      [⟨500, 500, PELLET_VALUE⟩, ⟨510, 500, PELLET_VALUE⟩] := by
    rw [tickRest_pellets,
      if_neg (by show ¬ (stateC3.nextPelletSpawn - 0 ≤ 0); norm_num [stateC3]),
      hdead2, hcoll, hloop]
    rfl
  have hcountA : deathCountFrom [snakeA3g, snakeB3] "a" = 3 := by
    simp only [deathCountFrom,
      show List.find? (fun s => s.id == "a") [snakeA3g, snakeB3] = some snakeA3g by
        rw [List.find?_cons_of_pos]
        show (snakeA3g.id == "a") = true
        decide]
    rw [show snakeA3g.segments.length = 8 from rfl,
      show ((⌊((8:ℕ) : ℝ) * DEATH_PELLET_FRACTION⌋).toNat) = 3 by
        rw [show (⌊((8:ℕ) : ℝ) * DEATH_PELLET_FRACTION⌋) = 3 by
          norm_num [DEATH_PELLET_FRACTION]]
        decide]
    decide
  have hcountB : deathCountFrom [snakeA3g, snakeB3] "b" = 1 := by
    simp only [deathCountFrom,
      show List.find? (fun s => s.id == "b") [snakeA3g, snakeB3] = some snakeB3 by
        rw [List.find?_cons_of_neg, List.find?_cons_of_pos]
        · show (snakeB3.id == "b") = true
          decide
        · show ¬ (snakeA3g.id == "b") = true
          decide]
    rw [show snakeB3.segments.length = 1 from rfl,
      show ((⌊((1:ℕ) : ℝ) * DEATH_PELLET_FRACTION⌋).toNat) = 0 by
        rw [show (⌊((1:ℕ) : ℝ) * DEATH_PELLET_FRACTION⌋) = 0 by
          norm_num [DEATH_PELLET_FRACTION]]
        decide]
    decide
  refine ⟨(tickRest stateC3 0 (1 / 2) (1 / 2) [snakeA3, snakeB3]).1,
    (tickRest stateC3 0 (1 / 2) (1 / 2) [snakeA3, snakeB3]).2.1,
    (tickRest stateC3 0 (1 / 2) (1 / 2) [snakeA3, snakeB3]).2.2,
    by rw [htick], by rw [hcoll], by norm_num [stateC3], ?_, ?_, ?_⟩
  · rw [hdead2, hcoll]
    simp only [List.map_cons, List.map_nil, List.sum_cons, List.sum_nil]
    rw [hcountA, hcountB]
    decide
  · rw [hpel]
    rfl
  · rw [hpel]
    norm_num [stateC3]

theorem collectPhase_nil_pellets (bounds : Bounds) :
    ∀ snakes : List Snake, collectPhase bounds snakes [] = (snakes, [], 0) := by
  intro snakes
  induction snakes with
  | nil => rfl
  | cons s rest ih =>
    simp only [collectPhase]
    rw [show collectForSnake s.segments.headI bounds [] =
      ((0 : ℝ), ([] : List Pellet), (0 : ℕ)) from rfl]
    rw [ih]
    rw [show applyGain s (0 : ℝ) = s from if_pos le_rfl]
    rfl

/-- Claim C5 (amended): `tick` constructs its result functionally except
for the caller's pellet array.  When at least one pellet is collected
the input array is left untouched (the local binding is rebound to a
fresh array by `slice().concat()`); but when nothing is collected, the
death-pellet and spawn `push` calls mutate the caller's array in place,
so its content after the call is the returned state's pellet list.
The input snakes and their segments are never mutated. -/
theorem tick_caller_pellets (state : GameState) (dt : ℝ)
    (ta : String → Option ℝ) (options : Option ℝ) (rx ry : ℝ)
    (moved : List Snake)
    (hmv : movePhase dt ta (options.getD 1) state.bounds state.snakes = some moved) :
    ∃ st' dead inp, tick state dt ta options rx ry = some (st', dead, inp) ∧
      (0 < (collectPhase state.bounds moved state.pellets).2.2 →
        inp = state.pellets) ∧
      ((collectPhase state.bounds moved state.pellets).2.2 = 0 →
        inp = st'.pellets) := by
  refine ⟨(tickRest state dt rx ry moved).1, (tickRest state dt rx ry moved).2.1,
    (tickRest state dt rx ry moved).2.2,
    by rw [tick_eq state dt ta options rx ry moved hmv], ?_, ?_⟩
  · intro h
    rw [tickRest_caller, if_neg (by omega)]
  · intro h
    rw [tickRest_caller, if_pos h]

/-- Witness for claim C5 (amended) at a concrete (empty) state. -/
theorem tick_caller_pellets_witness :
    ∃ st' dead inp, tick stateC5w 0 (fun _ => none) none (1 / 2) (1 / 2) =
        some (st', dead, inp) ∧
      (0 < (collectPhase stateC5w.bounds [] stateC5w.pellets).2.2 →
        inp = stateC5w.pellets) ∧
      ((collectPhase stateC5w.bounds [] stateC5w.pellets).2.2 = 0 →
        inp = st'.pellets) :=
  tick_caller_pellets stateC5w 0 (fun _ => none) none (1 / 2) (1 / 2) [] rfl

/-- Claim C5 counterexample: in `stateC5` (no pellets, two mutually
colliding snakes) nothing is collected, so the two death pellets are
pushed onto the caller's pellet array: after the call the input state's
pellets array no longer equals its original (empty) content — `tick`
mutated a structure owned by the input state. -/
theorem tick_mutates_input_pellets_counterexample :
    ∃ st' dead inp, tick stateC5 0 (fun _ => none) none (1 / 2) (1 / 2) =
        some (st', dead, inp) ∧
      stateC5.pellets = [] ∧ inp ≠ stateC5.pellets := by
  have hpi := Real.pi_pos
  have hma : moveSnake (mkSimpleSnake "a" ⟨500, 500⟩) 0
      (((fun _ => none : String → Option ℝ) (mkSimpleSnake "a" ⟨500, 500⟩).id).getD
        (mkSimpleSnake "a" ⟨500, 500⟩).angle) stateC5.bounds =
      some (mkSimpleSnake "a" ⟨500, 500⟩) :=
    moveSnake_single_dt_zero _ _ _ ⟨500, 500⟩ rfl
      (by show -Real.pi ≤ (0:ℝ); linarith) (by show (0:ℝ) ≤ Real.pi; linarith)
      (by norm_num) (by show (500:ℝ) < bounds1000.width; norm_num [bounds1000])
      (by norm_num) (by show (500:ℝ) < bounds1000.height; norm_num [bounds1000])
  have hmb : moveSnake (mkSimpleSnake "b" ⟨510, 500⟩) 0
      (((fun _ => none : String → Option ℝ) (mkSimpleSnake "b" ⟨510, 500⟩).id).getD
        (mkSimpleSnake "b" ⟨510, 500⟩).angle) stateC5.bounds =
      some (mkSimpleSnake "b" ⟨510, 500⟩) :=
    moveSnake_single_dt_zero _ _ _ ⟨510, 500⟩ rfl
      (by show -Real.pi ≤ (0:ℝ); linarith) (by show (0:ℝ) ≤ Real.pi; linarith)
      (by norm_num) (by show (510:ℝ) < bounds1000.width; norm_num [bounds1000])
      (by norm_num) (by show (500:ℝ) < bounds1000.height; norm_num [bounds1000])
  have hmv : movePhase 0 (fun _ => none) ((none : Option ℝ).getD 1)
      stateC5.bounds stateC5.snakes =
      some [mkSimpleSnake "a" ⟨500, 500⟩, mkSimpleSnake "b" ⟨510, 500⟩] := by
    show movePhase 0 (fun _ => none) 1 stateC5.bounds
      (mkSimpleSnake "a" ⟨500, 500⟩ :: [mkSimpleSnake "b" ⟨510, 500⟩]) = _
    rw [movePhase_cons_eval _ _ _ _ _ _ _ _ rfl hma
      (movePhase_cons_eval _ _ _ _ _ _ _ _ rfl hmb (movePhase_nil _ _ _ _))]
  have hcoll : collectPhase stateC5.bounds
      [mkSimpleSnake "a" ⟨500, 500⟩, mkSimpleSnake "b" ⟨510, 500⟩] stateC5.pellets =
      ([mkSimpleSnake "a" ⟨500, 500⟩, mkSimpleSnake "b" ⟨510, 500⟩], [], 0) :=
    collectPhase_nil_pellets _ _
  have hhitA : headHitsBody (mkSimpleSnake "a" ⟨500, 500⟩).id
      (mkSimpleSnake "a" ⟨500, 500⟩).segments.headI
      [mkSimpleSnake "a" ⟨500, 500⟩, mkSimpleSnake "b" ⟨510, 500⟩] stateC5.bounds := by
    refine ⟨mkSimpleSnake "b" ⟨510, 500⟩, by simp,
      by show (mkSimpleSnake "b" ⟨510, 500⟩).id ≠ _; simp [mkSimpleSnake],
      ⟨510, 500⟩, by show _ ∈ (mkSimpleSnake "b" ⟨510, 500⟩).segments; simp [mkSimpleSnake], ?_⟩
    show toroidalDistSq (mkSimpleSnake "a" ⟨500, 500⟩).segments.headI ⟨510, 500⟩
      stateC5.bounds < _
    rw [show (mkSimpleSnake "a" ⟨500, 500⟩).segments.headI = (⟨500, 500⟩ : Point) from rfl,
      show stateC5.bounds = bounds1000 from rfl,
      toroidalDistSq_of_close _ _ _ (by norm_num [bounds1000]) (by norm_num [bounds1000])
        (by norm_num [bounds1000]) (by norm_num [bounds1000])]
    norm_num [planarDistSq, HEAD_RADIUS, BODY_RADIUS]
  have hhitB : headHitsBody (mkSimpleSnake "b" ⟨510, 500⟩).id
      (mkSimpleSnake "b" ⟨510, 500⟩).segments.headI
      [mkSimpleSnake "a" ⟨500, 500⟩, mkSimpleSnake "b" ⟨510, 500⟩] stateC5.bounds := by
    refine ⟨mkSimpleSnake "a" ⟨500, 500⟩, by simp,
      by show (mkSimpleSnake "a" ⟨500, 500⟩).id ≠ _; simp [mkSimpleSnake],
      ⟨500, 500⟩, by show _ ∈ (mkSimpleSnake "a" ⟨500, 500⟩).segments; simp [mkSimpleSnake], ?_⟩
    show toroidalDistSq (mkSimpleSnake "b" ⟨510, 500⟩).segments.headI ⟨500, 500⟩
      stateC5.bounds < _
    rw [show (mkSimpleSnake "b" ⟨510, 500⟩).segments.headI = (⟨510, 500⟩ : Point) from rfl,
      show stateC5.bounds = bounds1000 from rfl,
      toroidalDistSq_of_close _ _ _ (by norm_num [bounds1000]) (by norm_num [bounds1000])
        (by norm_num [bounds1000]) (by norm_num [bounds1000])]
    norm_num [planarDistSq, HEAD_RADIUS, BODY_RADIUS]
  have hdead : computeDeadIds
      [mkSimpleSnake "a" ⟨500, 500⟩, mkSimpleSnake "b" ⟨510, 500⟩] stateC5.bounds
      [mkSimpleSnake "a" ⟨500, 500⟩, mkSimpleSnake "b" ⟨510, 500⟩] [] = ["a", "b"] := by
    simp only [computeDeadIds]
    rw [if_pos hhitA, if_neg (List.not_mem_nil (mkSimpleSnake "a" ⟨500, 500⟩).id),
      if_pos hhitB]
    rw [if_neg (by
      show ¬ (mkSimpleSnake "b" ⟨510, 500⟩).id ∈ [] ++ [(mkSimpleSnake "a" ⟨500, 500⟩).id]
      simp [mkSimpleSnake])]
    rfl
  have hdpf1 : deathPelletsFor (mkSimpleSnake "a" ⟨500, 500⟩) =
      [⟨500, 500, PELLET_VALUE⟩] := by
    simp only [deathPelletsFor]
    rw [show (mkSimpleSnake "a" ⟨500, 500⟩).segments.length = 1 from rfl,
      show ((⌊((1:ℕ) : ℝ) * DEATH_PELLET_FRACTION⌋).toNat) = 0 by
        rw [show (⌊((1:ℕ) : ℝ) * DEATH_PELLET_FRACTION⌋) = 0 by
          norm_num [DEATH_PELLET_FRACTION]]
        decide]
    rfl
  have hdpf2 : deathPelletsFor (mkSimpleSnake "b" ⟨510, 500⟩) =
      [⟨510, 500, PELLET_VALUE⟩] := by
    simp only [deathPelletsFor]
    rw [show (mkSimpleSnake "b" ⟨510, 500⟩).segments.length = 1 from rfl,
      show ((⌊((1:ℕ) : ℝ) * DEATH_PELLET_FRACTION⌋).toNat) = 0 by
        rw [show (⌊((1:ℕ) : ℝ) * DEATH_PELLET_FRACTION⌋) = 0 by
          norm_num [DEATH_PELLET_FRACTION]]
        decide]
    rfl
  have hloop : deathPelletsLoop stateC5.snakes ["a", "b"] =
      [⟨500, 500, PELLET_VALUE⟩, ⟨510, 500, PELLET_VALUE⟩] := by
    simp only [deathPelletsLoop,
      show stateC5.snakes.find? (fun s => s.id == "a") =
          some (mkSimpleSnake "a" ⟨500, 500⟩) by
        show List.find? _ [mkSimpleSnake "a" ⟨500, 500⟩, mkSimpleSnake "b" ⟨510, 500⟩] = _
        rw [List.find?_cons_of_pos]
        show ((mkSimpleSnake "a" ⟨500, 500⟩).id == "a") = true
        decide,
      show stateC5.snakes.find? (fun s => s.id == "b") =
          some (mkSimpleSnake "b" ⟨510, 500⟩) by
        show List.find? _ [mkSimpleSnake "a" ⟨500, 500⟩, mkSimpleSnake "b" ⟨510, 500⟩] = _
        rw [List.find?_cons_of_neg, List.find?_cons_of_pos]
        · show ((mkSimpleSnake "b" ⟨510, 500⟩).id == "b") = true
          decide
        · show ¬ ((mkSimpleSnake "a" ⟨500, 500⟩).id == "b") = true
          decide,
      hdpf1, hdpf2]
    rfl
  have htick := tick_eq stateC5 0 (fun _ => none) none (1 / 2) (1 / 2)
    [mkSimpleSnake "a" ⟨500, 500⟩, mkSimpleSnake "b" ⟨510, 500⟩] hmv
  have hdead2 : (tickRest stateC5 0 (1 / 2) (1 / 2)
      [mkSimpleSnake "a" ⟨500, 500⟩, mkSimpleSnake "b" ⟨510, 500⟩]).2.1 = ["a", "b"] := by
    rw [tickRest_dead, hcoll]
    exact hdead
  have hpel : (tickRest stateC5 0 (1 / 2) (1 / 2)
      [mkSimpleSnake "a" ⟨500, 500⟩, mkSimpleSnake "b" ⟨510, 500⟩]).1.pellets =
      [⟨500, 500, PELLET_VALUE⟩, ⟨510, 500, PELLET_VALUE⟩] := by
    rw [tickRest_pellets,
      if_neg (by show ¬ (stateC5.nextPelletSpawn - 0 ≤ 0); norm_num [stateC5]),
      hdead2, hcoll, hloop]
    rfl
  have hinp : (tickRest stateC5 0 (1 / 2) (1 / 2)
      [mkSimpleSnake "a" ⟨500, 500⟩, mkSimpleSnake "b" ⟨510, 500⟩]).2.2 =
      [⟨500, 500, PELLET_VALUE⟩, ⟨510, 500, PELLET_VALUE⟩] := by
    rw [tickRest_caller, if_pos (by rw [hcoll]), hpel]
  refine ⟨_, _, _, by rw [htick], rfl, ?_⟩
  rw [hinp]
  show ¬ _ = stateC5.pellets
  rw [show stateC5.pellets = ([] : List Pellet) from rfl]
  simp

/-! Lemmas for claim C4: evaluation of `avoidObstacles` at the failing
input. -/

theorem repulsionStep_otherC4 (rep : Point) :
    repulsionStep ⟨0, 0⟩ otherC4 rep = ⟨rep.x + 54 / 55, rep.y + 0⟩ := by
  simp only [repulsionStep]
  rw [show otherC4.segments.headI = (⟨2, 0⟩ : Point) from rfl]
  rw [show (⟨(⟨2, 0⟩ : Point).x, (⟨2, 0⟩ : Point).y⟩ : Point) = (⟨2, 0⟩ : Point) from rfl]
  rw [show planarDistSq ⟨0, 0⟩ ⟨2, 0⟩ = (4 : ℝ) by norm_num [planarDistSq]]
  rw [if_pos ⟨by norm_num [HEAD_RADIUS, BODY_RADIUS, DANGER_RADIUS], by norm_num⟩]
  rw [show Real.sqrt (4 : ℝ) = 2 by
    rw [show (4 : ℝ) = 2 ^ 2 by norm_num]
    exact Real.sqrt_sq (by norm_num)]
  rw [show Real.sqrt ((HEAD_RADIUS + BODY_RADIUS + DANGER_RADIUS) *
      (HEAD_RADIUS + BODY_RADIUS + DANGER_RADIUS)) = 110 by
    rw [show (HEAD_RADIUS + BODY_RADIUS + DANGER_RADIUS) *
        (HEAD_RADIUS + BODY_RADIUS + DANGER_RADIUS) = (110 : ℝ) ^ 2 by
      norm_num [HEAD_RADIUS, BODY_RADIUS, DANGER_RADIUS]]
    exact Real.sqrt_sq (by norm_num)]
  rw [Point.mk.injEq]
  norm_num

theorem foldl_point_shift (cx cy : ℝ) (f : Point → Point)
    (hf : ∀ p, f p = ⟨p.x + cx, p.y + cy⟩) :
    ∀ (l : List ℕ) (init : Point),
      l.foldl (fun acc _ => f acc) init =
        ⟨init.x + (l.length : ℝ) * cx, init.y + (l.length : ℝ) * cy⟩ := by
  intro l
  induction l with
  | nil =>
    intro init
    cases init with
    | mk x y => simp
  | cons a l ih =>
    intro init
    simp only [List.foldl_cons]
    rw [ih, hf init]
    rw [Point.mk.injEq]
    simp only [List.length_cons]
    push_cast
    constructor
    · show init.x + cx + (l.length : ℝ) * cx = init.x + ((l.length : ℝ) + 1) * cx
      ring
    · show init.y + cy + (l.length : ℝ) * cy = init.y + ((l.length : ℝ) + 1) * cy
      ring

/-- Claim C4: evaluation of `avoidObstacles` at the failing input.  The
bot's head sits at the origin; the other snake's 110 segments all sit
at `(2, 0)`, well inside the danger radius.  The claim (and the
function's own doc comment) say the snake is pushed *away*, i.e. toward
heading `π`; the code returns heading `0` — straight at the obstacle —
because the loop reads `segments[0]` on every iteration and subtracts
the away-pointing unit vector instead of adding it. -/
theorem avoidObstacles_toward_obstacle_eval :
    avoidObstacles ⟨0, 0⟩ botC4 [botC4, otherC4] = some 0 ∧ (0 : ℝ) ≠ Real.pi := by
  constructor
  · unfold avoidObstacles
    rw [List.foldl_cons, List.foldl_cons, List.foldl_nil]
    rw [show repulsionForSnake ⟨0, 0⟩ botC4.id botC4 ⟨0, 0⟩ = ⟨0, 0⟩ by
      simp only [repulsionForSnake]
      rw [if_pos (by decide : (botC4.id == botC4.id) = true)]
      rw [show botC4.segments.length - 1 = 0 from rfl]
      rfl]
    rw [show repulsionForSnake ⟨0, 0⟩ botC4.id otherC4 ⟨0, 0⟩ = ⟨108, 0⟩ by
      simp only [repulsionForSnake]
      rw [if_neg (by decide : ¬ (otherC4.id == botC4.id) = true)]
      rw [show otherC4.segments.length - 0 = 110 from rfl]
      rw [foldl_point_shift (54 / 55) 0 (repulsionStep ⟨0, 0⟩ otherC4)
        repulsionStep_otherC4 (List.range 110) ⟨0, 0⟩]
      rw [List.length_range, Point.mk.injEq]
      norm_num]
    show (if Real.sqrt ((108 : ℝ) * 108 + 0 * 0) < 100 then (none : Option ℝ)
          else some (atan2 0 108)) = some 0
    rw [show Real.sqrt ((108 : ℝ) * 108 + 0 * 0) = 108 by
      rw [show (108 : ℝ) * 108 + 0 * 0 = 108 ^ 2 by norm_num]
      exact Real.sqrt_sq (by norm_num)]
    rw [if_neg (by norm_num : ¬ ((108 : ℝ) < 100))]
    simp only [atan2]
    rw [if_pos (by norm_num : (108 : ℝ) > 0)]
    norm_num [Real.arctan_zero]
  · exact ne_of_lt Real.pi_pos

/-! Lemmas for claim C8: shape of `createInitialState`. -/

theorem initialSegments_length (x y angle : ℝ) :
    (initialSegments x y angle).length = INITIAL_LENGTH := by
  unfold initialSegments
  rw [List.length_map, List.length_range]

theorem initialSegments_headI (x y angle : ℝ) :
    (initialSegments x y angle).headI = ⟨x, y⟩ := by
  have h : List.range INITIAL_LENGTH = 0 :: (List.range 29).map Nat.succ := by
    rw [show INITIAL_LENGTH = 29 + 1 from rfl]
    exact List.range_succ_eq_map 29
  unfold initialSegments
  rw [h, List.map_cons]
  show (⟨x - Real.cos angle * ((0 : ℕ) : ℝ) * SEGMENT_SPACING,
        y - Real.sin angle * ((0 : ℕ) : ℝ) * SEGMENT_SPACING⟩ : Point) = ⟨x, y⟩
  rw [Point.mk.injEq]
  push_cast
  constructor <;> ring

theorem pickPosition_some_bounds (rng : ℕ → ℝ) (minX maxX minY maxY : ℝ)
    (hrng : ∀ n, 0 ≤ rng n ∧ rng n < 1) (hx : minX ≤ maxX) (hy : minY ≤ maxY) :
    ∀ (fuel : ℕ) (used : List (ℤ × ℤ)) (i : ℕ) (x y : ℝ) (key : ℤ × ℤ) (i2 : ℕ),
      pickPosition rng minX maxX minY maxY used fuel i = some (x, y, key, i2) →
      minX ≤ x ∧ x ≤ maxX ∧ minY ≤ y ∧ y ≤ maxY := by
  intro fuel
  induction fuel with
  | zero => intro used i x y key i2 h; exact absurd h (by simp [pickPosition])
  | succ fuel ih =>
    intro used i x y key i2 h
    simp only [pickPosition] at h
    split_ifs at h with hmem
    · exact ih used (i + 2) x y key i2 h
    · rw [Option.some_inj] at h
      simp only [Prod.mk.injEq] at h
      obtain ⟨hx', hy', -, -⟩ := h
      have h1 := hrng i
      have h2 := hrng (i + 1)
      subst hx'
      subst hy'
      refine ⟨by nlinarith [h1.1, h1.2], by nlinarith [h1.1, h1.2],
        by nlinarith [h2.1, h2.2], by nlinarith [h2.1, h2.2]⟩

/-- Unfolding equation of `mkBots` in the successor case, phrased with
explicit `Option.bind`. -/
theorem mkBots_succ_eq (rng : ℕ → ℝ) (minX maxX minY maxY : ℝ)
    (fuel count botIdx i : ℕ) (used : List (ℤ × ℤ)) :
    mkBots rng minX maxX minY maxY fuel (count + 1) botIdx i used =
    (pickPosition rng minX maxX minY maxY used fuel i).bind fun pos =>
      (mkBots rng minX maxX minY maxY fuel count (botIdx + 1) (pos.2.2.2 + 1)
        (used ++ [pos.2.2.1])).bind fun rest =>
      some (mkBotSnake rng botIdx pos :: rest.1, rest.2) := rfl

theorem mkBots_props (rng : ℕ → ℝ) (minX maxX minY maxY : ℝ) (fuel : ℕ)
    (hrng : ∀ n, 0 ≤ rng n ∧ rng n < 1) (hx : minX ≤ maxX) (hy : minY ≤ maxY) :
    ∀ (count botIdx i : ℕ) (used : List (ℤ × ℤ)) (snakes : List Snake) (i2 : ℕ),
      mkBots rng minX maxX minY maxY fuel count botIdx i used = some (snakes, i2) →
      snakes.length = count ∧
      ∀ s ∈ snakes, s.segments.length = INITIAL_LENGTH ∧
        minX ≤ s.segments.headI.x ∧ s.segments.headI.x ≤ maxX ∧
        minY ≤ s.segments.headI.y ∧ s.segments.headI.y ≤ maxY := by
  intro count
  induction count with
  | zero =>
    intro botIdx i used snakes i2 h
    simp only [mkBots, Option.some_inj, Prod.mk.injEq] at h
    obtain ⟨h1, -⟩ := h
    subst h1
    exact ⟨rfl, fun s hs => absurd hs (List.not_mem_nil s)⟩
  | succ count ih =>
    intro botIdx i used snakes i2 h
    rw [mkBots_succ_eq, Option.bind_eq_some] at h
    obtain ⟨pos, hp, h⟩ := h
    rw [Option.bind_eq_some] at h
    obtain ⟨rest, hr, h⟩ := h
    rw [Option.some_inj, Prod.mk.injEq] at h
    obtain ⟨hsn, -⟩ := h
    obtain ⟨hxb, hyb1, hyb2, hyb3⟩ := pickPosition_some_bounds rng minX maxX minY maxY
      hrng hx hy fuel used i pos.1 pos.2.1 pos.2.2.1 pos.2.2.2 (by rw [hp])
    obtain ⟨hlen, hprops⟩ := ih (botIdx + 1) (pos.2.2.2 + 1) (used ++ [pos.2.2.1])
      rest.1 rest.2 (by rw [hr])
    subst hsn
    constructor
    · simp [hlen]
    · intro s hs
      rcases List.mem_cons.mp hs with heq | hmem
      · subst heq
        have hseg : (mkBotSnake rng botIdx pos).segments.headI =
            (⟨pos.1, pos.2.1⟩ : Point) := initialSegments_headI _ _ _
        refine ⟨initialSegments_length pos.1 pos.2.1 _, ?_⟩
        rw [hseg]
        exact ⟨hxb, hyb1, hyb2, hyb3⟩
      · exact hprops s hmem

theorem mkPellets_length (rng : ℕ → ℝ) (minX maxX minY maxY : ℝ) :
    ∀ n i, (mkPellets rng minX maxX minY maxY n i).length = n := by
  intro n
  induction n with
  | zero => intro i; rfl
  | succ n ih => intro i; simp [mkPellets, ih]

theorem mkPellets_bounds (rng : ℕ → ℝ) (minX maxX minY maxY : ℝ)
    (hrng : ∀ n, 0 ≤ rng n ∧ rng n < 1) (hx : minX ≤ maxX) (hy : minY ≤ maxY) :
    ∀ n i, ∀ p ∈ mkPellets rng minX maxX minY maxY n i,
      minX ≤ p.x ∧ p.x ≤ maxX ∧ minY ≤ p.y ∧ p.y ≤ maxY := by
  intro n
  induction n with
  | zero => intro i p hp; exact absurd hp (List.not_mem_nil p)
  | succ n ih =>
    intro i p hp
    simp only [mkPellets] at hp
    rcases List.mem_cons.mp hp with heq | hmem
    · subst heq
      have h1 := hrng i
      have h2 := hrng (i + 1)
      refine ⟨?_, ?_, ?_, ?_⟩
      · show minX ≤ minX + rng i * (maxX - minX)
        nlinarith [h1.1, h1.2]
      · show minX + rng i * (maxX - minX) ≤ maxX
        nlinarith [h1.1, h1.2]
      · show minY ≤ minY + rng (i + 1) * (maxY - minY)
        nlinarith [h2.1, h2.2]
      · show minY + rng (i + 1) * (maxY - minY) ≤ maxY
        nlinarith [h2.1, h2.2]
    · exact ih (i + 2) p hmem

/-- Claim C8 (amended): for every random oracle with values in `[0, 1)`
and any retry fuel, a successful
`createInitialState (bounds 1000×1000, 3 bots, 5 pellets)` returns
exactly 3 snakes of `INITIAL_LENGTH` segments each and exactly 5
pellets; every pellet and every snake *head* lies in the padded
interior `[ARENA_PADDING, 1000 − ARENA_PADDING]²`.  Body segments are
not so constrained: they extend unwrapped behind the head, and the
counterexample below exhibits a segment outside the padded interior. -/
theorem createInitialState_shape (rng : ℕ → ℝ) (fuel : ℕ) (st : GameState)
    (hrng : ∀ n, 0 ≤ rng n ∧ rng n < 1)
    (h : createInitialState rng fuel (some ⟨1000, 1000⟩) (some 3) (some 5) = some st) :
    st.snakes.length = 3 ∧
    (∀ s ∈ st.snakes, s.segments.length = INITIAL_LENGTH) ∧
    st.pellets.length = 5 ∧
    (∀ s ∈ st.snakes,
      ARENA_PADDING ≤ s.segments.headI.x ∧ s.segments.headI.x ≤ 1000 - ARENA_PADDING ∧
      ARENA_PADDING ≤ s.segments.headI.y ∧ s.segments.headI.y ≤ 1000 - ARENA_PADDING) ∧
    (∀ p ∈ st.pellets,
      ARENA_PADDING ≤ p.x ∧ p.x ≤ 1000 - ARENA_PADDING ∧
      ARENA_PADDING ≤ p.y ∧ p.y ≤ 1000 - ARENA_PADDING) := by
  have hpad : ARENA_PADDING ≤ (1000 : ℝ) - ARENA_PADDING := by
    norm_num [ARENA_PADDING]
  have hmk : createInitialState rng fuel (some ⟨1000, 1000⟩) (some 3) (some 5) =
      (mkBots rng ARENA_PADDING (1000 - ARENA_PADDING) ARENA_PADDING
        (1000 - ARENA_PADDING) fuel 3 0 0 []).bind fun bots =>
      some { snakes := bots.1,
             pellets := mkPellets rng ARENA_PADDING (1000 - ARENA_PADDING)
               ARENA_PADDING (1000 - ARENA_PADDING) 5 bots.2,
             bounds := ⟨1000, 1000⟩,
             nextSnakeId := 3,
             nextPelletSpawn := PELLET_SPAWN_INTERVAL } := rfl
  rw [hmk, Option.bind_eq_some] at h
  obtain ⟨bots, hb, hst⟩ := h
  rw [Option.some_inj] at hst
  obtain ⟨hlen, hprops⟩ := mkBots_props rng ARENA_PADDING (1000 - ARENA_PADDING)
    ARENA_PADDING (1000 - ARENA_PADDING) fuel hrng hpad hpad 3 0 0 [] bots.1 bots.2
    (by rw [hb])
  have hsn : st.snakes = bots.1 := by rw [← hst]
  have hpl : st.pellets = mkPellets rng ARENA_PADDING (1000 - ARENA_PADDING)
      ARENA_PADDING (1000 - ARENA_PADDING) 5 bots.2 := by rw [← hst]
  refine ⟨by rw [hsn]; exact hlen, ?_, ?_, ?_, ?_⟩
  · intro s hs
    have hs' : s ∈ bots.1 := hsn ▸ hs
    exact (hprops s hs').1
  · rw [hpl]
    exact mkPellets_length rng _ _ _ _ 5 bots.2
  · intro s hs
    have hs' : s ∈ bots.1 := hsn ▸ hs
    exact (hprops s hs').2
  · intro p hp
    rw [hpl] at hp
    exact mkPellets_bounds rng _ _ _ _ hrng hpad hpad 5 bots.2 p hp

theorem rngC8_range : ∀ n, 0 ≤ rngC8 n ∧ rngC8 n < 1 := by
  intro n
  unfold rngC8
  split_ifs <;> norm_num

theorem pickPosition_rngC8_0 :
    pickPosition rngC8 40 960 40 960 [] 1 0 = some (40, 40, (0, 0), 2) := by
  show pickPosition rngC8 40 960 40 960 [] (0 + 1) 0 = _
  simp only [pickPosition]
  rw [show rngC8 0 = (0 : ℝ) from rfl, show rngC8 1 = (0 : ℝ) from rfl]
  rw [show (40 : ℝ) + 0 * (960 - 40) = 40 by norm_num]
  rw [show ⌊(40 : ℝ) / 50⌋ = (0 : ℤ) by norm_num]
  rw [if_neg (List.not_mem_nil _)]

theorem pickPosition_rngC8_1 :
    pickPosition rngC8 40 960 40 960 [((0 : ℤ), (0 : ℤ))] 1 3 =
      some (500, 500, (10, 10), 5) := by
  show pickPosition rngC8 40 960 40 960 [((0 : ℤ), (0 : ℤ))] (0 + 1) 3 = _
  simp only [pickPosition]
  rw [show rngC8 3 = (1 / 2 : ℝ) from rfl, show rngC8 4 = (1 / 2 : ℝ) from rfl]
  rw [show (40 : ℝ) + 1 / 2 * (960 - 40) = 500 by norm_num]
  rw [show ⌊(500 : ℝ) / 50⌋ = (10 : ℤ) by norm_num]
  rw [if_neg (by decide : ¬ (((10 : ℤ), (10 : ℤ)) ∈ [((0 : ℤ), (0 : ℤ))]))]

theorem pickPosition_rngC8_2 :
    pickPosition rngC8 40 960 40 960 [((0 : ℤ), (0 : ℤ)), ((10 : ℤ), (10 : ℤ))] 1 6 =
      some (270, 270, (5, 5), 8) := by
  show pickPosition rngC8 40 960 40 960
    [((0 : ℤ), (0 : ℤ)), ((10 : ℤ), (10 : ℤ))] (0 + 1) 6 = _
  simp only [pickPosition]
  rw [show rngC8 6 = (1 / 4 : ℝ) from rfl, show rngC8 7 = (1 / 4 : ℝ) from rfl]
  rw [show (40 : ℝ) + 1 / 4 * (960 - 40) = 270 by norm_num]
  rw [show ⌊(270 : ℝ) / 50⌋ = (5 : ℤ) by norm_num]
  rw [if_neg (by decide :
    ¬ (((5 : ℤ), (5 : ℤ)) ∈ [((0 : ℤ), (0 : ℤ)), ((10 : ℤ), (10 : ℤ))]))]

theorem mkBots_rngC8_2 :
    mkBots rngC8 40 960 40 960 1 1 2 6 [((0 : ℤ), (0 : ℤ)), ((10 : ℤ), (10 : ℤ))] =
      some ([botC8_2], 9) := by
  show mkBots rngC8 40 960 40 960 1 (0 + 1) 2 6
    [((0 : ℤ), (0 : ℤ)), ((10 : ℤ), (10 : ℤ))] = _
  rw [mkBots_succ_eq, pickPosition_rngC8_2]
  rfl

theorem mkBots_rngC8_3 :
    mkBots rngC8 40 960 40 960 1 2 1 3 [((0 : ℤ), (0 : ℤ))] =
      some ([botC8_1, botC8_2], 9) := by
  show mkBots rngC8 40 960 40 960 1 (1 + 1) 1 3 [((0 : ℤ), (0 : ℤ))] = _
  rw [mkBots_succ_eq, pickPosition_rngC8_1]
  show (mkBots rngC8 40 960 40 960 1 1 2 6
      [((0 : ℤ), (0 : ℤ)), ((10 : ℤ), (10 : ℤ))]).bind
    (fun rest => some (mkBotSnake rngC8 1 (500, 500, ((10 : ℤ), (10 : ℤ)), 5) ::
      rest.1, rest.2)) = some ([botC8_1, botC8_2], 9)
  rw [mkBots_rngC8_2]
  rfl

theorem mkBots_rngC8_eval :
    mkBots rngC8 40 960 40 960 1 3 0 0 [] = some ([botC8_0, botC8_1, botC8_2], 9) := by
  show mkBots rngC8 40 960 40 960 1 (2 + 1) 0 0 [] = _
  rw [mkBots_succ_eq, pickPosition_rngC8_0]
  show (mkBots rngC8 40 960 40 960 1 2 1 3 [((0 : ℤ), (0 : ℤ))]).bind
    (fun rest => some (mkBotSnake rngC8 0 (40, 40, ((0 : ℤ), (0 : ℤ)), 2) ::
      rest.1, rest.2)) = some ([botC8_0, botC8_1, botC8_2], 9)
  rw [mkBots_rngC8_3]
  rfl

theorem createInitialState_rngC8_eval :
    createInitialState rngC8 1 (some ⟨1000, 1000⟩) (some 3) (some 5) = some stC8 := by
  have hmk : createInitialState rngC8 1 (some ⟨1000, 1000⟩) (some 3) (some 5) =
      (mkBots rngC8 ARENA_PADDING (1000 - ARENA_PADDING) ARENA_PADDING
        (1000 - ARENA_PADDING) 1 3 0 0 []).bind fun bots =>
      some { snakes := bots.1,
             pellets := mkPellets rngC8 ARENA_PADDING (1000 - ARENA_PADDING)
               ARENA_PADDING (1000 - ARENA_PADDING) 5 bots.2,
             bounds := ⟨1000, 1000⟩,
             nextSnakeId := 3,
             nextPelletSpawn := PELLET_SPAWN_INTERVAL } := rfl
  rw [hmk]
  rw [show (ARENA_PADDING : ℝ) = 40 from rfl]
  rw [show (1000 : ℝ) - 40 = 960 by norm_num]
  rw [mkBots_rngC8_eval]
  rfl

/-- Claim C8 (counterexample to the unamended statement): with a valid
oracle, the first bot's head is drawn at the padded corner `(40, 40)`
with heading `0`, so its second body segment sits at `(32, 40)` —
strictly outside the padded interior, since `32 < ARENA_PADDING`.
Snakes are therefore not entirely "within the padded interior". -/
theorem createInitialState_segment_outside_counterexample :
    (∀ n, 0 ≤ rngC8 n ∧ rngC8 n < 1) ∧
    ∃ st, createInitialState rngC8 1 (some ⟨1000, 1000⟩) (some 3) (some 5) = some st ∧
      ∃ s ∈ st.snakes, ∃ p ∈ s.segments, p.x < ARENA_PADDING := by
  refine ⟨rngC8_range, stC8, createInitialState_rngC8_eval, botC8_0, ?_,
    ⟨32, 40⟩, ?_, ?_⟩
  · show botC8_0 ∈ stC8.snakes
    simp [stC8]
  · have hang : rngC8 2 * 2 * Real.pi - Real.pi = 0 := by
      rw [show rngC8 2 = (1 / 2 : ℝ) from rfl]
      ring
    have hseg : botC8_0.segments = initialSegments 40 40 0 := by
      show initialSegments 40 40 (rngC8 2 * 2 * Real.pi - Real.pi) =
        initialSegments 40 40 0
      rw [hang]
    rw [hseg]
    unfold initialSegments
    refine List.mem_map.mpr ⟨1, List.mem_range.mpr (by norm_num [INITIAL_LENGTH]), ?_⟩
    rw [Point.mk.injEq]
    constructor
    · rw [Real.cos_zero]
      push_cast
      norm_num [SEGMENT_SPACING]
    · rw [Real.sin_zero]
      push_cast
      norm_num
  · show (32 : ℝ) < ARENA_PADDING
    norm_num [ARENA_PADDING]

/-- Witness for the amended C8 theorem: the concrete oracle `rngC8`
satisfies the range hypothesis, `createInitialState` succeeds on it, and
the resulting state has the claimed shape. -/
theorem createInitialState_shape_witness :
    (∀ n, 0 ≤ rngC8 n ∧ rngC8 n < 1) ∧
    (stC8.snakes.length = 3 ∧
     (∀ s ∈ stC8.snakes, s.segments.length = INITIAL_LENGTH) ∧
     stC8.pellets.length = 5 ∧
     (∀ s ∈ stC8.snakes,
       ARENA_PADDING ≤ s.segments.headI.x ∧ s.segments.headI.x ≤ 1000 - ARENA_PADDING ∧
       ARENA_PADDING ≤ s.segments.headI.y ∧ s.segments.headI.y ≤ 1000 - ARENA_PADDING) ∧
     (∀ p ∈ stC8.pellets,
       ARENA_PADDING ≤ p.x ∧ p.x ≤ 1000 - ARENA_PADDING ∧
       ARENA_PADDING ≤ p.y ∧ p.y ≤ 1000 - ARENA_PADDING)) :=
  ⟨rngC8_range,
    createInitialState_shape rngC8 1 stC8 rngC8_range createInitialState_rngC8_eval⟩

end

end Slither
